import Mathlib

/-
Verification of the cap-dab-server alert-to-broadcast pipeline and DAB
framing codec, as a shallow embedding of the Python source.

Source files embedded here:
  * src/dab/data.py     : _crc16, MSCDataGroupBuilder, PacketBuilder
  * src/dab/watcher.py  : DABWatcher.run (Cancel branch, Warning edge),
                          DABWatcher._broadcast_tts
  * src/cap/parser.py   : CAPParser.get_datetime (CPython strptime model),
                          CAPParser.parse / __check_elements /
                          __check_info_elements / __parse_references
  * src/cap/server.py   : CAPServer._index (queue enqueue, HTTP statuses)
  * src/utils.py        : logger_strict

Machine integers are modelled as Nat with explicit masking, exactly where
the Python code masks.  Bytes are Nats < 256.  Fallible Python code is
modelled with Except (raised exception) or Option (None results).
-/

namespace CapDab

/-! ### Python CRC-16 from src/dab/data.py, function _crc16

The Python loop body is, for each byte e of the input:
    x = (crc >> 8) ^ e
    x = (x ^ (x >> 4))
    crc = ((crc << 8) & 0xFFFF) ^ ((x << 12) & 0xFFFF) ^ ((x << 5) & 0xFFFF) ^ (x & 0xFFFF)
starting from crc = 0xFFFF, and finally crc = ~crc & 0xFFFF packed big-endian. -/

def crc16_update (crc e : Nat) : Nat :=
  let x0 := (crc >>> 8) ^^^ e
  let x := x0 ^^^ (x0 >>> 4)
  ((crc <<< 8) &&& 0xFFFF) ^^^ ((x <<< 12) &&& 0xFFFF) ^^^ ((x <<< 5) &&& 0xFFFF) ^^^ (x &&& 0xFFFF)

def crc16_core (data : List Nat) : Nat :=
  data.foldl crc16_update 0xFFFF

/-- The final value of the Python `_crc16`: `~crc & 0xFFFF`, which for
`crc < 2 ^ 16` is the 16-bit complement `0xFFFF ^^^ crc`, packed as two
big-endian bytes by `struct.pack('!H', crc)`. -/
def crc16 (data : List Nat) : List Nat :=
  let c := 0xFFFF ^^^ crc16_core data
  [c >>> 8, c &&& 0xFF]

/-! ### Specification-side CRC: the X.25 / CRC-CCITT bit-level definition

Modelled from the spec: "CRC polynomial: X.25 (0x1021), init 0xFFFF, output
complemented, MSB-first processing": each input byte is XORed into the top
of the 16-bit register and the register is clocked 8 times, XORing in the
polynomial whenever the bit shifted out is 1. -/

def x25Step (c : Nat) : Nat :=
  if c &&& 0x8000 = 0 then (c <<< 1) &&& 0xFFFF
  else ((c <<< 1) &&& 0xFFFF) ^^^ 0x1021

def x25Steps : Nat → Nat → Nat
  | 0, c => c
  | n + 1, c => x25Steps n (x25Step c)

def x25Byte (c e : Nat) : Nat :=
  x25Steps 8 (c ^^^ (e <<< 8))

def x25Core (data : List Nat) : Nat :=
  data.foldl x25Byte 0xFFFF

/-- CRC-16/X.25 of a byte list, output complemented, as two big-endian bytes. -/
def x25CrcBytes (data : List Nat) : List Nat :=
  let c := 0xFFFF ^^^ x25Core data
  [c >>> 8, c &&& 0xFF]

/-! ### Equivalence of the Python byte-wise CRC and the bit-level X.25 CRC -/

theorem natShiftLeft_xor (a b n : Nat) : (a ^^^ b) <<< n = (a <<< n) ^^^ (b <<< n) := by
  apply Nat.eq_of_testBit_eq
  intro i
  simp only [Nat.testBit_shiftLeft, Nat.testBit_xor]
  by_cases h : n ≤ i <;> simp [h]

theorem natLand_xor (a b m : Nat) : (a ^^^ b) &&& m = (a &&& m) ^^^ (b &&& m) := by
  apply Nat.eq_of_testBit_eq
  intro i
  simp only [Nat.testBit_and, Nat.testBit_xor]
  cases a.testBit i <;> cases b.testBit i <;> cases m.testBit i <;> rfl

theorem x25Step_as_xor (c : Nat) :
    x25Step c = ((c <<< 1) &&& 0xFFFF) ^^^ (if c &&& 0x8000 = 0 then 0 else 0x1021) := by
  unfold x25Step
  split <;> simp

theorem and_msb_cases (a : Nat) : a &&& 0x8000 = 0 ∨ a &&& 0x8000 = 0x8000 := by
  have h := Nat.and_two_pow a 15
  norm_num at h
  cases hb : a.testBit 15 <;> rw [hb] at h <;> simp at h <;> omega

theorem natXor_left_comm (a b c : Nat) : a ^^^ (b ^^^ c) = b ^^^ (a ^^^ c) := by
  rw [← Nat.xor_assoc, Nat.xor_comm a b, Nat.xor_assoc]

theorem natXor_cancel_left (a b : Nat) : a ^^^ (a ^^^ b) = b := by
  rw [← Nat.xor_assoc, Nat.xor_self, Nat.zero_xor]

theorem x25Step_xor (a b : Nat) : x25Step (a ^^^ b) = x25Step a ^^^ x25Step b := by
  rw [x25Step_as_xor, x25Step_as_xor, x25Step_as_xor, natShiftLeft_xor, natLand_xor]
  have hab : (a ^^^ b) &&& 0x8000 = (a &&& 0x8000) ^^^ (b &&& 0x8000) := natLand_xor a b 0x8000
  rcases and_msb_cases a with ha | ha <;> rcases and_msb_cases b with hb | hb <;>
    rw [hab, ha, hb] <;> norm_num <;>
    simp [Nat.xor_assoc, Nat.xor_comm, natXor_left_comm, natXor_cancel_left]

theorem x25Steps_xor (n a b : Nat) : x25Steps n (a ^^^ b) = x25Steps n a ^^^ x25Steps n b := by
  induction n generalizing a b with
  | zero => rfl
  | succ k ih => simp only [x25Steps, x25Step_xor, ih]

set_option maxRecDepth 4096

theorem x25Steps_low (lo : Nat) (h : lo < 256) : x25Steps 8 lo = lo <<< 8 := by
  have : ∀ y : Fin 256, x25Steps 8 y.val = y.val <<< 8 := by decide
  exact this ⟨lo, h⟩

/-- The byte-indexed table form of 8 clockings of the X.25 register. -/
def x25Table (y : Nat) : Nat :=
  x25Steps 8 (y <<< 8)

/-- The byte-indexed table form implicit in the Python nibble-trick update. -/
def pyTable (y : Nat) : Nat :=
  let x := y ^^^ (y >>> 4)
  ((x <<< 12) &&& 0xFFFF) ^^^ ((x <<< 5) &&& 0xFFFF) ^^^ (x &&& 0xFFFF)

theorem x25Table_eq_pyTable (y : Nat) (h : y < 256) : x25Table y = pyTable y := by
  have : ∀ y : Fin 256, x25Table y.val = pyTable y.val := by decide
  exact this ⟨y, h⟩

theorem split16 (c e : Nat) :
    c ^^^ (e <<< 8) = (((c >>> 8) ^^^ e) <<< 8) ^^^ (c &&& 0xFF) := by
  apply Nat.eq_of_testBit_eq
  intro i
  have hff : (0xFF : Nat) = 2 ^ 8 - 1 := by norm_num
  simp only [Nat.testBit_xor, Nat.testBit_shiftLeft, Nat.testBit_shiftRight,
    Nat.testBit_and, hff, Nat.testBit_two_pow_sub_one]
  by_cases h : 8 ≤ i
  · have h2 : ¬ i < 8 := by omega
    have h3 : 8 + (i - 8) = i := by omega
    simp [h, h2, h3, Bool.xor_comm]
  · have h2 : i < 8 := by omega
    simp [h, h2]

theorem shiftLeft_and_mask (c : Nat) : (c <<< 8) &&& 0xFFFF = (c &&& 0xFF) <<< 8 := by
  apply Nat.eq_of_testBit_eq
  intro i
  have hff : (0xFF : Nat) = 2 ^ 8 - 1 := by norm_num
  have hffff : (0xFFFF : Nat) = 2 ^ 16 - 1 := by norm_num
  simp only [Nat.testBit_and, Nat.testBit_shiftLeft, hff, hffff, Nat.testBit_two_pow_sub_one]
  by_cases h : 8 ≤ i
  · by_cases h2 : i < 16
    · have h3 : i - 8 < 8 := by omega
      simp [h, h2, h3]
    · have h3 : ¬ (i - 8 < 8) := by omega
      simp [h, h2, h3]
  · simp [h]

theorem crc16_update_as_table (c e : Nat) :
    crc16_update c e = ((c <<< 8) &&& 0xFFFF) ^^^ pyTable ((c >>> 8) ^^^ e) := by
  unfold crc16_update pyTable
  simp [Nat.xor_assoc]

theorem xor_lt_65536 {a b : Nat} (ha : a < 65536) (hb : b < 65536) : a ^^^ b < 65536 := by
  have h : (65536 : Nat) = 2 ^ 16 := by norm_num
  rw [h] at ha hb ⊢
  exact Nat.xor_lt_two_pow ha hb

theorem xor_lt_256 {a b : Nat} (ha : a < 256) (hb : b < 256) : a ^^^ b < 256 := by
  have h : (256 : Nat) = 2 ^ 8 := by norm_num
  rw [h] at ha hb ⊢
  exact Nat.xor_lt_two_pow ha hb

theorem and_ffff_lt (a : Nat) : a &&& 0xFFFF < 65536 := by
  have := Nat.and_le_right (n := a) (m := 0xFFFF)
  omega

theorem x25Byte_eq_update (c e : Nat) (hc : c < 65536) (he : e < 256) :
    x25Byte c e = crc16_update c e := by
  have hhi : c >>> 8 < 256 := by
    rw [Nat.shiftRight_eq_div_pow]
    omega
  have hxe : (c >>> 8) ^^^ e < 256 := xor_lt_256 hhi he
  have hlo : c &&& 0xFF < 256 := by
    have := Nat.and_le_right (n := c) (m := 0xFF)
    omega
  rw [crc16_update_as_table, x25Byte, split16, x25Steps_xor,
    x25Steps_low _ hlo, shiftLeft_and_mask]
  rw [show x25Steps 8 ((c >>> 8 ^^^ e) <<< 8) = x25Table ((c >>> 8) ^^^ e) from rfl]
  rw [x25Table_eq_pyTable _ hxe, Nat.xor_comm]

theorem crc16_update_lt (c e : Nat) : crc16_update c e < 65536 := by
  simp only [crc16_update]
  exact xor_lt_65536 (xor_lt_65536 (xor_lt_65536 (and_ffff_lt _) (and_ffff_lt _))
    (and_ffff_lt _)) (and_ffff_lt _)

theorem foldl_crc_eq (data : List Nat) : ∀ acc : Nat, acc < 65536 →
    (∀ b ∈ data, b < 256) → data.foldl x25Byte acc = data.foldl crc16_update acc := by
  induction data with
  | nil => intro acc _ _; rfl
  | cons b t ih =>
      intro acc hacc hb
      have hb0 : b < 256 := hb b (List.mem_cons_self b t)
      simp only [List.foldl_cons]
      rw [x25Byte_eq_update acc b hacc hb0]
      exact ih (crc16_update acc b) (crc16_update_lt acc b)
        (fun x hx => hb x (List.mem_cons_of_mem b hx))

/-- The Python `_crc16` computes exactly the complemented big-endian
CRC-16/X.25 of its input, for genuine byte inputs. -/
theorem crc16_eq_x25 (data : List Nat) (h : ∀ b ∈ data, b < 256) :
    crc16 data = x25CrcBytes data := by
  unfold crc16 x25CrcBytes crc16_core x25Core
  rw [foldl_crc_eq data 0xFFFF (by norm_num) h]

/-! ### MSCDataGroupBuilder from src/dab/data.py

State: `last_data` (previous payload, initially None), continuity index
`coni` (initially 15) and repetition index `repi` (initially 0). -/

structure MSCDataGroupBuilder where
  last_data : Option (List Nat)
  coni : Nat
  repi : Nat
deriving DecidableEq

def MSCDataGroupBuilder.init : MSCDataGroupBuilder :=
  { last_data := none, coni := 15, repi := 0 }

/-- MSC data group header (ETSI EN 300 401 V2.1.1 Section 5.3.3):
byte0 packs extension/CRC/segment/user-access flags, byte1 packs the data
group type (0), continuity index and repetition index. -/
def MSCDataGroupBuilder.buildHeader (b : MSCDataGroupBuilder) : List Nat :=
  let byte0 := (0 <<< 7) ||| (1 <<< 6) ||| (0 <<< 5) ||| (0 <<< 4)
  let byte1 := (0 : Nat) ||| (b.coni <<< 4) ||| b.repi
  [byte0, byte1]

/-- One `build` call: update `coni`/`repi` from the comparison with
`last_data`, then emit header ++ data ++ CRC over header ++ data. -/
def MSCDataGroupBuilder.build (b : MSCDataGroupBuilder) (data : List Nat) :
    MSCDataGroupBuilder × List Nat :=
  let b1 :=
    if b.last_data = none ∨ b.last_data ≠ some data then
      { last_data := some data, coni := (b.coni + 1) % 16, repi := 0 }
    else if b.repi > 0 then
      { b with last_data := some data, repi := b.repi - 1 }
    else
      { b with last_data := some data, repi := 0 }
  let packet := b1.buildHeader ++ data
  (b1, packet ++ crc16 packet)

/-- Successive calls of `build`, returning all emitted data groups. -/
def MSCDataGroupBuilder.buildSeq (b : MSCDataGroupBuilder) :
    List (List Nat) → MSCDataGroupBuilder × List (List Nat)
  | [] => (b, [])
  | d :: ds =>
      let r1 := b.build d
      let r2 := r1.1.buildSeq ds
      (r2.1, r1.2 :: r2.2)

/-- The continuity index carried by an emitted MSC data group: the high
nibble of its second header byte. -/
def groupConi (g : List Nat) : Nat :=
  (g.getD 1 0) >>> 4

theorem or_shiftLeft4_shiftRight (c r : Nat) (h : r < 16) :
    ((c <<< 4) ||| r) >>> 4 = c := by
  apply Nat.eq_of_testBit_eq
  intro i
  have hr : r.testBit (4 + i) = false := by
    apply Nat.testBit_lt_two_pow
    calc r < 16 := h
    _ ≤ 2 ^ (4 + i) := by
      have : (16 : Nat) = 2 ^ 4 := by norm_num
      rw [this]
      exact Nat.pow_le_pow_right (by norm_num) (by omega)
  simp [Nat.testBit_shiftRight, Nat.testBit_shiftLeft, hr]

theorem groupConi_header (b1 : MSCDataGroupBuilder) (rest : List Nat) (h : b1.repi < 16) :
    groupConi (b1.buildHeader ++ rest) = b1.coni := by
  simp only [MSCDataGroupBuilder.buildHeader, groupConi, List.cons_append, List.nil_append,
    List.getD_cons_succ, List.getD_cons_zero, Nat.zero_or]
  exact or_shiftLeft4_shiftRight _ _ h

theorem build_snd_eq (b : MSCDataGroupBuilder) (data : List Nat) :
    (b.build data).2 =
      (b.build data).1.buildHeader ++
        (data ++ crc16 ((b.build data).1.buildHeader ++ data)) := by
  simp only [MSCDataGroupBuilder.build]
  rw [List.append_assoc]

theorem groupConi_of_build (b : MSCDataGroupBuilder) (data : List Nat)
    (h : (b.build data).1.repi < 16) :
    groupConi (b.build data).2 = (b.build data).1.coni := by
  rw [build_snd_eq]
  exact groupConi_header _ _ h

theorem build_fresh (b : MSCDataGroupBuilder) (data : List Nat)
    (h : b.last_data ≠ some data) :
    (b.build data).1 =
      { last_data := some data, coni := (b.coni + 1) % 16, repi := 0 } := by
  simp only [MSCDataGroupBuilder.build]
  split
  · rfl
  · rename_i hc
    push_neg at hc
    exact absurd hc.2 h

theorem build_same (b : MSCDataGroupBuilder) (data : List Nat)
    (h : b.last_data = some data) :
    (b.build data).1.coni = b.coni ∧ (b.build data).1.last_data = some data ∧
      (b.build data).1.repi ≤ b.repi := by
  simp only [MSCDataGroupBuilder.build]
  have hcond : ¬ (b.last_data = none ∨ b.last_data ≠ some data) := by
    simp [h]
  rw [if_neg hcond]
  split <;> simp

theorem buildSeq_cons (b : MSCDataGroupBuilder) (d : List Nat) (ds : List (List Nat)) :
    b.buildSeq (d :: ds) =
      (((b.build d).1.buildSeq ds).1, (b.build d).2 :: ((b.build d).1.buildSeq ds).2) := by
  rfl

/-- Along a run of payloads in which each payload differs from the previous
one (and the first differs from the stored `last_data`), the emitted
continuity indices are consecutive mod 16. -/
theorem buildSeq_coni_distinct :
    ∀ (ps : List (List Nat)) (b : MSCDataGroupBuilder),
      ps.Chain' (fun x y => x ≠ y) →
      (∀ p, ps.head? = some p → b.last_data ≠ some p) →
      ∀ i, i < ps.length →
        groupConi ((b.buildSeq ps).2.getD i []) = (b.coni + 1 + i) % 16 := by
  intro ps
  induction ps with
  | nil => intro b _ _ i hi; simp at hi
  | cons p ps ih =>
      intro b hchain hhead i hi
      have hne : b.last_data ≠ some p := hhead p rfl
      have hb1 : (b.build p).1 =
          { last_data := some p, coni := (b.coni + 1) % 16, repi := 0 } :=
        build_fresh b p hne
      rw [buildSeq_cons]
      cases i with
      | zero =>
          simp only [List.getD_cons_zero]
          rw [groupConi_of_build b p (by rw [hb1]; norm_num), hb1]
      | succ j =>
          simp only [List.getD_cons_succ]
          have hchain2 : ps.Chain' (fun x y => x ≠ y) := hchain.tail
          have hhead2 : ∀ q, ps.head? = some q → (b.build p).1.last_data ≠ some q := by
            intro q hq
            rw [hb1]
            simp only [Option.some.injEq, ne_eq]
            intro hpq
            rcases ps with _ | ⟨q2, ps2⟩
            · simp at hq
            · simp at hq
              subst hq
              exact (List.chain'_cons.mp hchain).1 hpq
          have := ih (b.build p).1 hchain2 hhead2 j (by simpa using hi)
          rw [this, hb1]
          show ((b.coni + 1) % 16 + 1 + j) % 16 = (b.coni + 1 + (j + 1)) % 16
          omega


theorem build_sets_last (b : MSCDataGroupBuilder) (d : List Nat) :
    (b.build d).1.last_data = some d := by
  simp only [MSCDataGroupBuilder.build]
  split
  · rfl
  · split <;> rfl

theorem build_repi_lt (b : MSCDataGroupBuilder) (d : List Nat) (h : b.repi < 16) :
    (b.build d).1.repi < 16 := by
  simp only [MSCDataGroupBuilder.build]
  split
  · norm_num
  · split <;> simp <;> omega

/-- Along a run of identical payloads from a state that already stores that
payload, every emitted data group carries the state's continuity index and
the state invariants are preserved. -/
theorem buildSeq_replicate_coni (d : List Nat) :
    ∀ (n : Nat) (b : MSCDataGroupBuilder), b.last_data = some d → b.repi < 16 →
      ∀ g ∈ (b.buildSeq (List.replicate n d)).2, groupConi g = b.coni := by
  intro n
  induction n with
  | zero => intro b _ _ g hg; simp [MSCDataGroupBuilder.buildSeq] at hg
  | succ m ih =>
      intro b hlast hrep g hg
      rw [List.replicate_succ, buildSeq_cons] at hg
      have hsame := build_same b d hlast
      have hrep1 : (b.build d).1.repi < 16 := build_repi_lt b d hrep
      rcases List.mem_cons.mp hg with hg0 | hgr
      · rw [hg0, groupConi_of_build b d hrep1, hsame.1]
      · have := ih (b.build d).1 hsame.2.1 hrep1 g hgr
        rw [this, hsame.1]

/-- C5: on a fresh `MSCDataGroupBuilder`, `N` `build()` calls with
pairwise-distinct successive payloads emit MSC data group headers with
continuity indices `0, 1, …, (N-1) mod 16` in order; and any run of
`build()` calls with one identical payload leaves the continuity index
unchanged across the run. -/
theorem c5_continuity_sequence (ps : List (List Nat)) (d : List Nat) (n : Nat)
    (st : MSCDataGroupBuilder)
    (hps : ps.Chain' (fun x y => x ≠ y)) (hrep : st.repi < 16) :
    (∀ i, i < ps.length →
      groupConi ((MSCDataGroupBuilder.init.buildSeq ps).2.getD i []) = i % 16) ∧
    (∀ g1 ∈ (st.buildSeq (List.replicate n d)).2,
     ∀ g2 ∈ (st.buildSeq (List.replicate n d)).2, groupConi g1 = groupConi g2) := by
  constructor
  · intro i hi
    have hhead : ∀ p, ps.head? = some p →
        MSCDataGroupBuilder.init.last_data ≠ some p := by
      intro p _
      simp [MSCDataGroupBuilder.init]
    have := buildSeq_coni_distinct ps MSCDataGroupBuilder.init hps hhead i hi
    rw [this]
    show (15 + 1 + i) % 16 = i % 16
    omega
  · cases n with
    | zero =>
        intro g1 hg1
        simp [MSCDataGroupBuilder.buildSeq, List.replicate] at hg1
    | succ m =>
        have hall : ∀ g ∈ (st.buildSeq (List.replicate (m + 1) d)).2,
            groupConi g = (st.build d).1.coni := by
          intro g hg
          rw [List.replicate_succ, buildSeq_cons] at hg
          have hrep1 : (st.build d).1.repi < 16 := build_repi_lt st d hrep
          rcases List.mem_cons.mp hg with hg0 | hgr
          · rw [hg0]
            exact groupConi_of_build st d hrep1
          · exact buildSeq_replicate_coni d m (st.build d).1 (build_sets_last st d) hrep1 g hgr
        intro g1 hg1 g2 hg2
        rw [hall g1 hg1, hall g2 hg2]

/-- Closed instance discharging the hypotheses of `c5_continuity_sequence`. -/
theorem c5_continuity_sequence_witness :
    List.Chain' (fun x y : List Nat => x ≠ y) [[0], [1], [0]] ∧
    MSCDataGroupBuilder.init.repi < 16 ∧
    groupConi ((MSCDataGroupBuilder.init.buildSeq [[0], [1], [0]]).2.getD 2 []) = 2 % 16 :=
  ⟨by simp [List.chain'_cons], by decide,
    (c5_continuity_sequence [[0], [1], [0]] [5] 2 MSCDataGroupBuilder.init
      (by simp [List.chain'_cons]) (by decide)).1 2 (by decide)⟩

/-- Claim C6 as stated: the same bytes submitted twice in a row produce
different continuity indices. -/
def c6Claim : Prop :=
  ∀ (st : MSCDataGroupBuilder) (d : List Nat),
    groupConi (st.build d).2 ≠ groupConi ((st.build d).1.build d).2

/-- C6 is false on the code: from a fresh builder, submitting the payload
`[1]` twice yields the SAME continuity index both times (the repetition
mechanism of `MSCDataGroupBuilder.build` keeps `coni` fixed for repeats). -/
theorem c6_counterexample : ¬ c6Claim := by
  intro h
  exact h MSCDataGroupBuilder.init [1] (by decide)

/-- C6 amended: two successive `build` calls with the same payload produce
MSC data group headers carrying the SAME continuity index. -/
theorem c6_repeat_same_continuity (st : MSCDataGroupBuilder) (d : List Nat)
    (h : st.repi < 16) :
    groupConi (st.build d).2 = groupConi ((st.build d).1.build d).2 := by
  have h1 : (st.build d).1.last_data = some d := build_sets_last st d
  have hlt1 : (st.build d).1.repi < 16 := build_repi_lt st d h
  have hlt2 : ((st.build d).1.build d).1.repi < 16 := build_repi_lt _ d hlt1
  rw [groupConi_of_build _ _ hlt1, groupConi_of_build _ _ hlt2,
    (build_same _ _ h1).1]

/-- Closed instance discharging the hypothesis of `c6_repeat_same_continuity`. -/
theorem c6_repeat_same_continuity_witness :
    MSCDataGroupBuilder.init.repi < 16 ∧
    groupConi (MSCDataGroupBuilder.init.build [7]).2 =
      groupConi ((MSCDataGroupBuilder.init.build [7]).1.build [7]).2 :=
  ⟨by decide, c6_repeat_same_continuity MSCDataGroupBuilder.init [7] (by decide)⟩

/-! ### PacketBuilder from src/dab/data.py

`PACKET_LENGTH = (24, 48, 72, 96)` and `PACKET_DATA_LENGTH = (19, 43, 67, 91)`.
State: `first_last` (initially 0b11), per-packet continuity index `coni`
(initially 0) and the 10-bit packet `address`. -/

structure PacketBuilder where
  first_last : Nat
  coni : Nat
  address : Nat
deriving DecidableEq

def PacketBuilder.init (packet_address : Nat) : PacketBuilder :=
  { first_last := 0b11, coni := 0, address := packet_address &&& 0xFFFF }

/-- Packet header (ETSI EN 300 401 V2.1.1 Section 5.3.2.1).  Returns the
builder with `coni` incremented mod 4, and the three header bytes. -/
def PacketBuilder.buildHeader (pb : PacketBuilder) (packet_length data_length : Nat) :
    PacketBuilder × List Nat :=
  let size_bits : Nat :=
    if packet_length = 96 then 0b11 <<< 6
    else if packet_length = 72 then 0b10 <<< 6
    else if packet_length = 48 then 0b01 <<< 6
    else if packet_length = 24 then 0b00 <<< 6
    else 0
  let byte0 := ((size_bits ||| (pb.coni <<< 4)) ||| (pb.first_last <<< 2)) |||
    (0b11 &&& (pb.address >>> 8))
  let byte1 := pb.address &&& 0xFF
  let byte2 := (0 <<< 7) ||| data_length
  ({ pb with coni := (pb.coni + 1) % 4 }, [byte0, byte1, byte2])

/-- Python `_build_packet`: header, data, zero padding up to the packet length,
then the CRC over everything so far. -/
def PacketBuilder.buildPacket (pb : PacketBuilder) (data : List Nat)
    (packet_length data_length : Nat) : PacketBuilder × List Nat :=
  let padding_length := packet_length - 5 - data_length
  let r := pb.buildHeader packet_length data_length
  let body := (r.2 ++ data) ++ List.replicate padding_length 0
  (r.1, body ++ crc16 body)

/-- The `first_last` update of the `i == 3` (split) branch of `build`. -/
def splitFL (fl : Nat) : Nat :=
  if fl = 0b01 ∨ fl = 0b11 then 0b10
  else if fl = 0b10 then 0b00
  else fl

/-- The `first_last` update of the single-packet branch of `build`. -/
def singleFL (fl : Nat) : Nat :=
  if fl = 0b00 ∨ fl = 0b10 then 0b01 else 0b11

/-- Python `PacketBuilder.build`: the `for i in reversed(range(-1, 4))` loop
always returns from inside its body, so it is the following branch cascade:
data longer than `PACKET_DATA_LENGTH[3] = 91` takes the `i == 3` split branch
(a 96-byte packet with the first 91 bytes, then recursion on the rest);
otherwise the loop continues down to the first `i` with
`i < 0 or len(data) > PACKET_DATA_LENGTH[i]` and emits one packet of length
`PACKET_LENGTH[i + 1]`.  Returns the new builder state and the list of
emitted packets (the Python function returns their concatenation). -/
def PacketBuilder.build (pb : PacketBuilder) (data : List Nat) :
    PacketBuilder × List (List Nat) :=
  if h : data.length > 91 then
    let pb1 := { pb with first_last := splitFL pb.first_last }
    let r1 := pb1.buildPacket (data.take 91) 96 91
    let r2 := r1.1.build (data.drop 91)
    (r2.1, r1.2 :: r2.2)
  else
    let pb1 := { pb with first_last := singleFL pb.first_last }
    let packet_length :=
      if data.length > 67 then 96
      else if data.length > 43 then 72
      else if data.length > 19 then 48
      else 24
    let r := pb1.buildPacket data packet_length data.length
    (r.1, [r.2])
termination_by data.length
decreasing_by
  simp only [List.length_drop]
  omega

/-- The packet size demanded by the claim: the smallest member of
{24, 48, 72, 96} whose usable data length (size minus 5) is at least L. -/
def claimSize (L : Nat) : Nat :=
  (([24, 48, 72, 96].filter (fun s => L + 5 ≤ s)).headD 0)

theorem buildHeader_snd (pb : PacketBuilder) (plen dlen : Nat) :
    (pb.buildHeader plen dlen).2 =
      [(((if plen = 96 then 0b11 <<< 6
          else if plen = 72 then 0b10 <<< 6
          else if plen = 48 then 0b01 <<< 6
          else if plen = 24 then 0b00 <<< 6
          else 0) ||| (pb.coni <<< 4)) ||| (pb.first_last <<< 2)) |||
            (0b11 &&& (pb.address >>> 8)),
        pb.address &&& 0xFF, (0 <<< 7) ||| dlen] := rfl

theorem buildHeader_snd_length (pb : PacketBuilder) (plen dlen : Nat) :
    (pb.buildHeader plen dlen).2.length = 3 := rfl

theorem buildPacket_snd (pb : PacketBuilder) (data : List Nat) (plen dlen : Nat) :
    (pb.buildPacket data plen dlen).2 =
      (((pb.buildHeader plen dlen).2 ++ data) ++ List.replicate (plen - 5 - dlen) 0) ++
        crc16 (((pb.buildHeader plen dlen).2 ++ data) ++ List.replicate (plen - 5 - dlen) 0) :=
  rfl

theorem crc16_length (data : List Nat) : (crc16 data).length = 2 := rfl

theorem buildPacket_length (pb : PacketBuilder) (data : List Nat) (plen dlen : Nat) :
    (pb.buildPacket data plen dlen).2.length = 3 + data.length + (plen - 5 - dlen) + 2 := by
  rw [buildPacket_snd]
  simp only [List.length_append, crc16_length, List.length_replicate, buildHeader_snd_length]

theorem buildPacket_payload (pb : PacketBuilder) (data : List Nat) (plen dlen : Nat) :
    (((pb.buildPacket data plen dlen).2).drop 3).take data.length = data := by
  rw [buildPacket_snd]
  rw [List.append_assoc, List.append_assoc]
  have h3 : (pb.buildHeader plen dlen).2.length = 3 := rfl
  rw [← h3, List.drop_left]
  rw [← List.append_assoc]
  have := List.take_left data
    (List.replicate (plen - 5 - dlen) 0 ++
      crc16 (((pb.buildHeader plen dlen).2 ++ data) ++ List.replicate (plen - 5 - dlen) 0))
  simpa using this

theorem or_lt_256 {a b : Nat} (ha : a < 256) (hb : b < 256) : a ||| b < 256 := by
  have h : (256 : Nat) = 2 ^ 8 := by norm_num
  rw [h] at ha hb ⊢
  exact Nat.or_lt_two_pow ha hb

theorem buildHeader_bytes (pb : PacketBuilder) (plen dlen : Nat)
    (hconi : pb.coni < 4) (hfl : pb.first_last < 4) (hdlen : dlen < 128) :
    ∀ b ∈ (pb.buildHeader plen dlen).2, b < 256 := by
  intro b hb
  rw [buildHeader_snd] at hb
  have hsize : (if plen = 96 then 0b11 <<< 6
      else if plen = 72 then 0b10 <<< 6
      else if plen = 48 then 0b01 <<< 6
      else if plen = 24 then 0b00 <<< 6
      else 0) < 256 := by
    split_ifs <;> decide
  have hconi4 : pb.coni <<< 4 < 256 := by
    rw [Nat.shiftLeft_eq]
    omega
  have hfl2 : pb.first_last <<< 2 < 256 := by
    rw [Nat.shiftLeft_eq]
    omega
  have haddr : 0b11 &&& (pb.address >>> 8) < 256 := by
    have := Nat.and_le_left (n := 0b11) (m := pb.address >>> 8)
    omega
  have hb1 : pb.address &&& 0xFF < 256 := by
    have := Nat.and_le_right (n := pb.address) (m := 0xFF)
    omega
  have hb2 : (0 <<< 7) ||| dlen < 256 := by
    have h0 : (0 : Nat) <<< 7 = 0 := by norm_num
    rw [h0, Nat.zero_or]
    omega
  simp only [List.mem_cons, List.not_mem_nil, or_false] at hb
  rcases hb with h | h | h
  · rw [h]
    exact or_lt_256 (or_lt_256 (or_lt_256 hsize hconi4) hfl2) haddr
  · rw [h]; exact hb1
  · rw [h]; exact hb2

theorem crc16_core_lt (data : List Nat) : crc16_core data < 65536 := by
  have general : ∀ (l : List Nat) (acc : Nat), acc < 65536 →
      l.foldl crc16_update acc < 65536 := by
    intro l
    induction l with
    | nil => intro acc h; exact h
    | cons b t ih =>
        intro acc h
        exact ih (crc16_update acc b) (crc16_update_lt acc b)
  exact general data 0xFFFF (by norm_num)

theorem crc16_bytes (data : List Nat) : ∀ b ∈ crc16 data, b < 256 := by
  intro b hb
  have hc : 0xFFFF ^^^ crc16_core data < 65536 :=
    xor_lt_65536 (by norm_num) (crc16_core_lt data)
  simp only [crc16, List.mem_cons, List.not_mem_nil, or_false] at hb
  rcases hb with h | h
  · rw [h, Nat.shiftRight_eq_div_pow]
    omega
  · rw [h]
    have := Nat.and_le_right (n := 0xFFFF ^^^ crc16_core data) (m := 0xFF)
    omega

theorem buildPacket_bytes (pb : PacketBuilder) (data : List Nat) (plen dlen : Nat)
    (hconi : pb.coni < 4) (hfl : pb.first_last < 4) (hdlen : dlen < 128)
    (hdata : ∀ b ∈ data, b < 256) :
    ∀ b ∈ (pb.buildPacket data plen dlen).2, b < 256 := by
  intro b hb
  rw [buildPacket_snd] at hb
  rcases List.mem_append.mp hb with h | h
  · rcases List.mem_append.mp h with h2 | h2
    · rcases List.mem_append.mp h2 with h3 | h3
      · exact buildHeader_bytes pb plen dlen hconi hfl hdlen b h3
      · exact hdata b h3
    · have := List.eq_of_mem_replicate h2
      omega
  · exact crc16_bytes _ b h

/-- Every packet emitted by `_build_packet` ends in the two big-endian bytes
of the complemented MSB-first CRC-16 (poly 0x1021, init 0xFFFF) of all its
preceding bytes. -/
theorem buildPacket_crc (pb : PacketBuilder) (data : List Nat) (plen dlen : Nat)
    (hconi : pb.coni < 4) (hfl : pb.first_last < 4) (hdlen : dlen < 128)
    (hdata : ∀ b ∈ data, b < 256) :
    2 ≤ (pb.buildPacket data plen dlen).2.length ∧
      (pb.buildPacket data plen dlen).2.drop ((pb.buildPacket data plen dlen).2.length - 2) =
        x25CrcBytes ((pb.buildPacket data plen dlen).2.take
          ((pb.buildPacket data plen dlen).2.length - 2)) := by
  have hsnd := buildPacket_snd pb data plen dlen
  set body := ((pb.buildHeader plen dlen).2 ++ data) ++ List.replicate (plen - 5 - dlen) 0
    with hbody
  have hlen : (pb.buildPacket data plen dlen).2.length = body.length + 2 := by
    rw [hsnd, List.length_append, crc16_length]
  have hsub : (pb.buildPacket data plen dlen).2.length - 2 = body.length := by omega
  have hbytes : ∀ b ∈ body, b < 256 := by
    intro b hb
    have : b ∈ (pb.buildPacket data plen dlen).2 := by
      rw [hsnd]
      exact List.mem_append.mpr (Or.inl hb)
    exact buildPacket_bytes pb data plen dlen hconi hfl hdlen hdata b this
  refine ⟨by omega, ?_⟩
  rw [hsub, hsnd, List.drop_left, List.take_left]
  exact crc16_eq_x25 body hbytes

theorem splitFL_lt {fl : Nat} (h : fl < 4) : splitFL fl < 4 := by
  unfold splitFL
  split_ifs <;> omega

theorem singleFL_lt (fl : Nat) : singleFL fl < 4 := by
  unfold singleFL
  split_ifs <;> omega

theorem buildPacket_fst (pb : PacketBuilder) (data : List Nat) (plen dlen : Nat) :
    (pb.buildPacket data plen dlen).1 = { pb with coni := (pb.coni + 1) % 4 } := rfl

/-- The first packet of the `i == 3` split branch of `build`. -/
def splitHead (pb : PacketBuilder) (data : List Nat) : PacketBuilder × List Nat :=
  ({ pb with first_last := splitFL pb.first_last } : PacketBuilder).buildPacket
    (data.take 91) 96 91

theorem build_eq_split (pb : PacketBuilder) (data : List Nat) (h : 91 < data.length) :
    pb.build data =
      (((splitHead pb data).1.build (data.drop 91)).1,
        (splitHead pb data).2 :: ((splitHead pb data).1.build (data.drop 91)).2) := by
  rw [PacketBuilder.build]
  rw [dif_pos (show data.length > 91 from h)]
  rfl

theorem build_eq_single (pb : PacketBuilder) (data : List Nat) (h : ¬ 91 < data.length) :
    pb.build data =
      ((({ pb with first_last := singleFL pb.first_last } : PacketBuilder).buildPacket data
          (if data.length > 67 then 96
           else if data.length > 43 then 72
           else if data.length > 19 then 48
           else 24) data.length).1,
        [(({ pb with first_last := singleFL pb.first_last } : PacketBuilder).buildPacket data
          (if data.length > 67 then 96
           else if data.length > 43 then 72
           else if data.length > 19 then 48
           else 24) data.length).2]) := by
  rw [PacketBuilder.build]
  rw [dif_neg (show ¬ data.length > 91 from h)]

theorem build_single_crc (pb : PacketBuilder) (data : List Nat) (h : ¬ 91 < data.length)
    (hconi : pb.coni < 4) (hfl : pb.first_last < 4) (hdata : ∀ b ∈ data, b < 256) :
    ∀ p ∈ (pb.build data).2,
      2 ≤ p.length ∧ p.drop (p.length - 2) = x25CrcBytes (p.take (p.length - 2)) := by
  intro p hp
  rw [build_eq_single pb data h] at hp
  simp only [List.mem_singleton] at hp
  rw [hp]
  exact buildPacket_crc _ data _ data.length hconi (singleFL_lt _) (by omega) hdata

/-- C3: every DAB packet emitted by `PacketBuilder.build` on a nonempty byte
sequence ends in two bytes equal to the CRC-16 of all preceding bytes of the
packet, where the CRC is the variant named by the spec: polynomial 0x1021
processed MSB-first, initial value 0xFFFF, output complemented, appended as
two big-endian bytes. -/
theorem c3_packets_end_in_crc (pb : PacketBuilder) (data : List Nat)
    (hconi : pb.coni < 4) (hfl : pb.first_last < 4) (hne : data ≠ [])
    (hdata : ∀ b ∈ data, b < 256) :
    ∀ p ∈ (pb.build data).2,
      2 ≤ p.length ∧ p.drop (p.length - 2) = x25CrcBytes (p.take (p.length - 2)) := by
  have main : ∀ (n : Nat) (pb : PacketBuilder) (data : List Nat), data.length ≤ n →
      pb.coni < 4 → pb.first_last < 4 → (∀ b ∈ data, b < 256) →
      ∀ p ∈ (pb.build data).2,
        2 ≤ p.length ∧ p.drop (p.length - 2) = x25CrcBytes (p.take (p.length - 2)) := by
    intro n
    induction n with
    | zero =>
        intro pb data hlen hc hf hd
        exact build_single_crc pb data (by omega) hc hf hd
    | succ m ih =>
        intro pb data hlen hc hf hd p hp
        by_cases h91 : 91 < data.length
        · rw [build_eq_split pb data h91] at hp
          rcases List.mem_cons.mp hp with hp0 | hpr
          · rw [hp0]
            exact buildPacket_crc _ (data.take 91) 96 91 hc (splitFL_lt hf) (by omega)
              (fun b hb => hd b (List.take_subset 91 data hb))
          · have hc2 : (splitHead pb data).1.coni < 4 := by
              rw [splitHead, buildPacket_fst]
              exact Nat.mod_lt _ (by norm_num)
            have hf2 : (splitHead pb data).1.first_last < 4 := by
              rw [splitHead, buildPacket_fst]
              exact splitFL_lt hf
            exact ih (splitHead pb data).1 (data.drop 91)
              (by simp only [List.length_drop]; omega) hc2 hf2
              (fun b hb => hd b (List.drop_subset 91 data hb)) p hpr
        · exact build_single_crc pb data h91 hc hf hd p hp
  exact main data.length pb data le_rfl hconi hfl hdata

/-- Closed instance discharging the hypotheses of `c3_packets_end_in_crc`. -/
theorem c3_packets_end_in_crc_witness :
    2 ≤ (((PacketBuilder.init 1000).build [1, 2, 3]).2.headD []).length ∧
    (((PacketBuilder.init 1000).build [1, 2, 3]).2.headD []).drop
        ((((PacketBuilder.init 1000).build [1, 2, 3]).2.headD []).length - 2) =
      x25CrcBytes ((((PacketBuilder.init 1000).build [1, 2, 3]).2.headD []).take
        ((((PacketBuilder.init 1000).build [1, 2, 3]).2.headD []).length - 2)) :=
  c3_packets_end_in_crc (PacketBuilder.init 1000) [1, 2, 3] (by decide) (by decide)
    (by decide) (by decide) (((PacketBuilder.init 1000).build [1, 2, 3]).2.headD [])
    (by rw [build_eq_single (PacketBuilder.init 1000) [1, 2, 3] (by norm_num)]; simp)

theorem claimSize_eq (L : Nat) (h : L ≤ 91) :
    claimSize L =
      if L > 67 then 96 else if L > 43 then 72 else if L > 19 then 48 else 24 := by
  unfold claimSize
  simp only [List.filter_cons, List.filter_nil, decide_eq_true_eq]
  split_ifs <;> first | rfl | omega | simp_all | (exfalso; omega)

/-- C4: inputs of length at most 91 produce exactly one packet whose size is
the smallest of 24/48/72/96 with usable length (size - 5) at least the input
length; longer inputs produce a 96-byte packet carrying exactly the first 91
bytes followed by the packets built recursively from the remainder. -/
theorem c4_packet_sizing (pb : PacketBuilder) (data : List Nat) :
    (data.length ≤ 91 →
      (pb.build data).2.map List.length = [claimSize data.length]) ∧
    (91 < data.length →
      (pb.build data).2 =
          (splitHead pb data).2 :: ((splitHead pb data).1.build (data.drop 91)).2 ∧
        ((pb.build data).2.headD []).length = 96 ∧
        (((pb.build data).2.headD []).drop 3).take 91 = data.take 91) := by
  constructor
  · intro h
    rw [build_eq_single pb data (by omega)]
    simp only [List.map_cons, List.map_nil]
    rw [buildPacket_length, claimSize_eq data.length h]
    split_ifs <;> simp <;> omega
  · intro h
    rw [build_eq_split pb data h]
    refine ⟨rfl, ?_, ?_⟩
    · simp only [List.headD_cons, splitHead]
      rw [buildPacket_length]
      rw [List.length_take]
      omega
    · simp only [List.headD_cons, splitHead]
      have hpay := buildPacket_payload
        ({ pb with first_last := splitFL pb.first_last } : PacketBuilder)
        (data.take 91) 96 91
      rw [List.length_take] at hpay
      rw [show min 91 data.length = 91 by omega] at hpay
      exact hpay

/-- Closed instance discharging the hypotheses of `c4_packet_sizing`. -/
theorem c4_packet_sizing_witness :
    ((PacketBuilder.init 1000).build (List.replicate 30 7)).2.map List.length =
        [claimSize (List.replicate 30 7).length] ∧
    (((PacketBuilder.init 1000).build (List.replicate 100 7)).2.headD []).length = 96 :=
  ⟨(c4_packet_sizing (PacketBuilder.init 1000) (List.replicate 30 7)).1 (by decide),
   ((c4_packet_sizing (PacketBuilder.init 1000) (List.replicate 100 7)).2 (by decide)).2.1⟩

/-! ### DABWatcher Cancel handling from src/dab/watcher.py (run, TYPE_CANCEL)

Queue entries are dicts with sender/identifier/sent plus payload fields; the
Cancel branch compares the `(sender, identifier, sent)` triple of each
reference against each entry of `announcements` and `future_announcements`,
removing matches with Python `list.remove` while iterating. -/

structure CapAlert where
  sender : String
  identifier : String
  sent : String
  description : String
deriving DecidableEq

structure CapRef where
  sender : String
  identifier : String
  sent : String
deriving DecidableEq

/-- The comparison in the Cancel branch:
`ref['sender'] == _a['sender'] and ref['identifier'] == _a['identifier'] and ref['sent'] == _a['sent']`. -/
def matchesRef (r : CapRef) (a : CapAlert) : Bool :=
  r.sender == a.sender && r.identifier == a.identifier && r.sent == a.sent

/-- Python `list.remove(x)`: delete the first element equal to `x`. -/
def removeFirst {α : Type} [DecidableEq α] (x : α) : List α → List α
  | [] => []
  | y :: ys => if y = x then ys else y :: removeFirst x ys

theorem removeFirst_length {α : Type} [DecidableEq α] (x : α) :
    ∀ l : List α, x ∈ l → (removeFirst x l).length + 1 = l.length := by
  intro l
  induction l with
  | nil => intro h; cases h
  | cons y ys ih =>
      intro h
      by_cases hy : y = x
      · simp [removeFirst, hy]
      · have hx : x ∈ ys := by
          rcases List.mem_cons.mp h with h1 | h1
          · exact absurd h1.symm hy
          · exact h1
        simp only [removeFirst, if_neg hy, List.length_cons]
        rw [← ih hx]

/-- Python `for _a in lst: if p(_a): lst.remove(_a)` starting at position `k`:
the iterator walks a live list by index; a removal shifts later elements
down, so the element after a removed one is skipped.  Returns the final list
and whether any element was removed. -/
def pyForRemove {α : Type} [DecidableEq α] (p : α → Bool) (l : List α) (k : Nat) :
    List α × Bool :=
  if h : k < l.length then
    if p (l.get ⟨k, h⟩) then
      let r := pyForRemove p (removeFirst (l.get ⟨k, h⟩) l) (k + 1)
      (r.1, true)
    else
      pyForRemove p l (k + 1)
  else
    (l, false)
termination_by l.length - k
decreasing_by
  · have := removeFirst_length (l.get ⟨k, h⟩) l (l.get_mem _ _)
    omega
  · omega

def pyCancelRef (r : CapRef) (l : List CapAlert) : List CapAlert × Bool :=
  pyForRemove (fun a => matchesRef r a) l 0

/-- The whole `for ref in a['references']` loop: per reference, scan
`announcements` then `future_announcements`, accumulating the `cancelled`
flag. -/
def pyCancel : List CapRef → List CapAlert → List CapAlert →
    (List CapAlert × List CapAlert) × Bool
  | [], act, pend => ((act, pend), false)
  | r :: rs, act, pend =>
      let ra := pyCancelRef r act
      let rp := pyCancelRef r pend
      let rest := pyCancel rs ra.1 rp.1
      (rest.1, (ra.2 || rp.2) || rest.2)

structure CancelOutcome where
  act : List CapAlert
  pend : List CapAlert
  changed : Bool
  warned : Bool
deriving DecidableEq

/-- The tail of the Cancel branch: if nothing was cancelled, log a warning
and `continue` (no `changed = True`, broadcast state untouched); otherwise
proceed with the updated lists and mark the announcement list changed. -/
def watcherCancel (refs : List CapRef) (act pend : List CapAlert) : CancelOutcome :=
  let r := pyCancel refs act pend
  if r.2 then
    { act := r.1.1, pend := r.1.2, changed := true, warned := false }
  else
    { act := r.1.1, pend := r.1.2, changed := false, warned := true }

theorem pyForRemove_no_match {α : Type} [DecidableEq α] (p : α → Bool) :
    ∀ (n : Nat) (l : List α) (k : Nat), l.length - k ≤ n →
      (∀ a ∈ l, p a = false) → pyForRemove p l k = (l, false) := by
  intro n
  induction n with
  | zero =>
      intro l k hn _
      rw [pyForRemove, dif_neg (by omega)]
  | succ m ih =>
      intro l k hn hno
      rw [pyForRemove]
      by_cases hk : k < l.length
      · rw [dif_pos hk, if_neg (by rw [hno _ (l.get_mem _ _)]; exact Bool.false_ne_true)]
        exact ih l (k + 1) (by omega) hno
      · rw [dif_neg hk]

theorem removeFirst_eq_of_take {α : Type} [DecidableEq α] :
    ∀ (l : List α) (k : Nat) (hk : k < l.length),
      (∀ y ∈ l.take k, y ≠ l.get ⟨k, hk⟩) →
      removeFirst (l.get ⟨k, hk⟩) l = l.take k ++ l.drop (k + 1) := by
  intro l
  induction l with
  | nil => intro k hk; simp at hk
  | cons y ys ih =>
      intro k hk hne
      cases k with
      | zero => simp [removeFirst]
      | succ j =>
          have hj : j < ys.length := by simpa using hk
          have hgety : (y :: ys).get ⟨j + 1, hk⟩ = ys.get ⟨j, hj⟩ := rfl
          have hyne : y ≠ (y :: ys).get ⟨j + 1, hk⟩ := by
            apply hne
            simp [List.take_succ_cons]
          rw [hgety] at hyne ⊢
          have hne2 : ∀ z ∈ ys.take j, z ≠ ys.get ⟨j, hj⟩ := by
            intro z hz
            have : z ∈ (y :: ys).take (j + 1) := by
              simp [List.take_succ_cons, hz]
            have := hne z this
            rwa [hgety] at this
          simp only [removeFirst, if_neg (by exact fun h => hyne h)]
          rw [ih j hj hne2]
          simp [List.take_succ_cons]

theorem bool_eq_false_of_not_true {b : Bool} (h : ¬ b = true) : b = false := by
  cases b
  · rfl
  · exact absurd rfl h

theorem pyForRemove_unique {α : Type} [DecidableEq α] (p : α → Bool) :
    ∀ (n : Nat) (l : List α) (k : Nat), l.length - k ≤ n →
      l.countP p ≤ 1 → (∀ a ∈ l.take k, p a = false) →
      pyForRemove p l k = (l.filter (fun a => !p a), (l.drop k).any p) := by
  intro n
  induction n with
  | zero =>
      intro l k hn _ htake
      rw [pyForRemove, dif_neg (by omega)]
      have hall : ∀ a ∈ l, p a = false := by
        intro a ha
        exact htake a (by rw [List.take_of_length_le (by omega)]; exact ha)
      have h1 : l.filter (fun a => !p a) = l :=
        List.filter_eq_self.mpr (fun a ha => by simp [hall a ha])
      have h2 : l.drop k = [] := List.drop_eq_nil_of_le (by omega)
      rw [h1, h2]
      rfl
  | succ m ih =>
      intro l k hn hcount htake
      by_cases hk : k < l.length
      · by_cases hp : p (l.get ⟨k, hk⟩) = true
        · -- the examined element matches: it is removed and nothing else matches
          have hpg : p l[k] = true := hp
          have hdropk : l.drop k = l.get ⟨k, hk⟩ :: l.drop (k + 1) := by
            rw [List.drop_eq_getElem_cons hk]
            rfl
          have hsplit : l.take k ++ l.get ⟨k, hk⟩ :: l.drop (k + 1) = l := by
            rw [← hdropk]
            exact List.take_append_drop k l
          have htake0 : (l.take k).countP p = 0 :=
            List.countP_eq_zero.mpr (fun a ha => by simp [htake a ha])
          have hrest0 : (l.drop (k + 1)).countP p = 0 := by
            have hcnt : l.countP p =
                (l.take k).countP p + (l.get ⟨k, hk⟩ :: l.drop (k + 1)).countP p := by
              rw [← List.countP_append, hsplit]
            rw [List.countP_cons, hp] at hcnt
            norm_num at hcnt
            omega
          have hne : ∀ y ∈ l.take k, y ≠ l.get ⟨k, hk⟩ := by
            intro y hy heq
            have hfalse := htake y hy
            rw [heq, hp] at hfalse
            simp at hfalse
          have hrf := removeFirst_eq_of_take l k hk hne
          have hnomatch : ∀ a ∈ l.take k ++ l.drop (k + 1), p a = false := by
            intro a ha
            rcases List.mem_append.mp ha with h1 | h1
            · exact htake a h1
            · exact bool_eq_false_of_not_true (List.countP_eq_zero.mp hrest0 a h1)
          rw [pyForRemove, dif_pos hk, if_pos hp, hrf]
          have hno := pyForRemove_no_match p (l.take k ++ l.drop (k + 1)).length
            (l.take k ++ l.drop (k + 1)) (k + 1) (by omega) hnomatch
          show ((pyForRemove p (l.take k ++ l.drop (k + 1)) (k + 1)).1, true) = _
          rw [hno]
          have hta : List.filter (fun a => !p a) (l.take k) = l.take k :=
            List.filter_eq_self.mpr (fun a ha => by simp [htake a ha])
          have hdr : List.filter (fun a => !p a) (l.drop (k + 1)) = l.drop (k + 1) :=
            List.filter_eq_self.mpr
              (fun a ha => by simp [hnomatch a (List.mem_append.mpr (Or.inr ha))])
          have hfilter : l.filter (fun a => !p a) = l.take k ++ l.drop (k + 1) :=
            calc l.filter (fun a => !p a)
                = (l.take k ++ l.get ⟨k, hk⟩ :: l.drop (k + 1)).filter (fun a => !p a) :=
                  congrArg (List.filter (fun a => !p a)) hsplit.symm
              _ = l.take k ++ l.drop (k + 1) := by
                  rw [List.filter_append, List.filter_cons, hta, hdr,
                    if_neg (by simp [hp, hpg])]
          have hany : (l.drop k).any p = true := by
            rw [hdropk, List.any_cons, hp, Bool.true_or]
          rw [hfilter, hany]
        · -- the examined element does not match: move on
          have hpe : p (l.get ⟨k, hk⟩) = false := bool_eq_false_of_not_true hp
          have hpeg : p l[k] = false := hpe
          have htake2 : ∀ a ∈ l.take (k + 1), p a = false := by
            intro a ha
            rw [← List.take_concat_get l k hk, List.concat_eq_append] at ha
            rcases List.mem_append.mp ha with h1 | h1
            · exact htake a h1
            · rw [List.mem_singleton.mp h1]
              exact hpeg
          rw [pyForRemove, dif_pos hk, if_neg hp]
          rw [ih l (k + 1) (by omega) hcount htake2]
          have hdropk : l.drop k = l.get ⟨k, hk⟩ :: l.drop (k + 1) := by
            rw [List.drop_eq_getElem_cons hk]
            rfl
          rw [hdropk, List.any_cons, hpe, Bool.false_or]
      · rw [pyForRemove, dif_neg hk]
        have hall : ∀ a ∈ l, p a = false := by
          intro a ha
          exact htake a (by rw [List.take_of_length_le (by omega)]; exact ha)
        have h1 : l.filter (fun a => !p a) = l :=
          List.filter_eq_self.mpr (fun a ha => by simp [hall a ha])
        have h2 : l.drop k = [] := List.drop_eq_nil_of_le (by omega)
        rw [h1, h2]
        rfl

def alertKey (a : CapAlert) : String × String × String :=
  (a.sender, a.identifier, a.sent)

theorem matchesRef_iff_key (r : CapRef) (a : CapAlert) :
    matchesRef r a = true ↔ alertKey a = (r.sender, r.identifier, r.sent) := by
  simp only [matchesRef, alertKey, Bool.and_eq_true, beq_iff_eq, Prod.mk.injEq]
  constructor
  · rintro ⟨⟨h1, h2⟩, h3⟩
    exact ⟨h1.symm, h2.symm, h3.symm⟩
  · rintro ⟨h1, h2, h3⟩
    exact ⟨⟨h1.symm, h2.symm⟩, h3.symm⟩

theorem countP_matches_le_one (l : List CapAlert)
    (h : l.Pairwise (fun a b => alertKey a ≠ alertKey b)) (r : CapRef) :
    l.countP (fun a => matchesRef r a) ≤ 1 := by
  induction l with
  | nil => simp
  | cons a t ih =>
      rw [List.countP_cons]
      rcases List.pairwise_cons.mp h with ⟨hhead, htail⟩
      by_cases hm : matchesRef r a = true
      · have ht0 : t.countP (fun x => matchesRef r x) = 0 := by
          apply List.countP_eq_zero.mpr
          intro b hb hmb
          have hkb := (matchesRef_iff_key r b).mp hmb
          have hka := (matchesRef_iff_key r a).mp hm
          exact hhead b hb (hka.trans hkb.symm)
        simp [ht0, hm]
      · have hm0 : matchesRef r a = false := bool_eq_false_of_not_true hm
        simp [hm0]
        have := ih htail
        omega

theorem pyCancelRef_filter (r : CapRef) (l : List CapAlert)
    (h : l.countP (fun a => matchesRef r a) ≤ 1) :
    pyCancelRef r l =
      (l.filter (fun a => !(matchesRef r a)), l.any (fun a => matchesRef r a)) := by
  unfold pyCancelRef
  have := pyForRemove_unique (fun a => matchesRef r a) l.length l 0 (by omega) h
    (by simp)
  simpa using this

theorem pairwise_key_filter {l : List CapAlert} (q : CapAlert → Bool)
    (h : l.Pairwise (fun a b => alertKey a ≠ alertKey b)) :
    (l.filter q).Pairwise (fun a b => alertKey a ≠ alertKey b) :=
  h.sublist (List.filter_sublist l)

theorem pyCancel_filter :
    ∀ (refs : List CapRef) (act pend : List CapAlert),
      act.Pairwise (fun a b => alertKey a ≠ alertKey b) →
      pend.Pairwise (fun a b => alertKey a ≠ alertKey b) →
      (pyCancel refs act pend).1.1 =
          act.filter (fun a => !(refs.any fun r => matchesRef r a)) ∧
      (pyCancel refs act pend).1.2 =
          pend.filter (fun a => !(refs.any fun r => matchesRef r a)) := by
  intro refs
  induction refs with
  | nil =>
      intro act pend _ _
      constructor
      · show act = act.filter fun a => !([].any fun r => matchesRef r a)
        rw [List.filter_eq_self.mpr (fun a _ => by simp)]
      · show pend = pend.filter fun a => !([].any fun r => matchesRef r a)
        rw [List.filter_eq_self.mpr (fun a _ => by simp)]
  | cons r rs ih =>
      intro act pend hact hpend
      have hra := pyCancelRef_filter r act (countP_matches_le_one act hact r)
      have hrp := pyCancelRef_filter r pend (countP_matches_le_one pend hpend r)
      have hact2 := pairwise_key_filter (fun a => !(matchesRef r a)) hact
      have hpend2 := pairwise_key_filter (fun a => !(matchesRef r a)) hpend
      have hih := ih (act.filter (fun a => !(matchesRef r a)))
        (pend.filter (fun a => !(matchesRef r a))) hact2 hpend2
      have hcomp : ∀ l : List CapAlert,
          (l.filter (fun a => !(matchesRef r a))).filter
              (fun a => !(rs.any fun x => matchesRef x a)) =
            l.filter (fun a => !((r :: rs).any fun x => matchesRef x a)) := by
        intro l
        rw [List.filter_filter]
        apply List.filter_congr
        intro a _
        cases hm : matchesRef r a <;> simp [hm]
      constructor
      · show (pyCancel rs (pyCancelRef r act).1 (pyCancelRef r pend).1).1.1 = _
        rw [hra, hrp]
        rw [hih.1, hcomp]
      · show (pyCancel rs (pyCancelRef r act).1 (pyCancelRef r pend).1).1.2 = _
        rw [hra, hrp]
        rw [hih.2, hcomp]

theorem pyCancel_no_match :
    ∀ (refs : List CapRef) (act pend : List CapAlert),
      (∀ r ∈ refs, ∀ a ∈ act ++ pend, matchesRef r a = false) →
      pyCancel refs act pend = ((act, pend), false) := by
  intro refs
  induction refs with
  | nil => intro act pend _; rfl
  | cons r rs ih =>
      intro act pend hno
      have hnoa : ∀ a ∈ act, (fun a => matchesRef r a) a = false := by
        intro a ha
        exact hno r (List.mem_cons_self r rs) a (List.mem_append.mpr (Or.inl ha))
      have hnop : ∀ a ∈ pend, (fun a => matchesRef r a) a = false := by
        intro a ha
        exact hno r (List.mem_cons_self r rs) a (List.mem_append.mpr (Or.inr ha))
      have hra : pyCancelRef r act = (act, false) :=
        pyForRemove_no_match _ act.length act 0 (by omega) hnoa
      have hrp : pyCancelRef r pend = (pend, false) :=
        pyForRemove_no_match _ pend.length pend 0 (by omega) hnop
      show ((pyCancel rs (pyCancelRef r act).1 (pyCancelRef r pend).1).1,
        (((pyCancelRef r act).2 || (pyCancelRef r pend).2) ||
          (pyCancel rs (pyCancelRef r act).1 (pyCancelRef r pend).1).2)) = _
      rw [hra, hrp]
      rw [ih act pend (fun x hx => hno x (List.mem_cons_of_mem r hx))]
      rfl

/-- Claim C2 as stated: every alert whose `(sender, identifier, sent)`
triple equals one of the Cancel's references is removed from both sets, and
a Cancel with no matching reference only logs a warning and leaves the
announcement lists and broadcast state unchanged. -/
def c2Claim : Prop :=
  ∀ (refs : List CapRef) (act pend : List CapAlert),
    (∀ a ∈ act, (refs.any fun r => matchesRef r a) = true →
      a ∉ (pyCancel refs act pend).1.1) ∧
    (∀ a ∈ pend, (refs.any fun r => matchesRef r a) = true →
      a ∉ (pyCancel refs act pend).1.2) ∧
    ((∀ r ∈ refs, ∀ a ∈ act ++ pend, matchesRef r a = false) →
      watcherCancel refs act pend =
        { act := act, pend := pend, changed := false, warned := true })

/-- C2 is false on the code: when two queued alerts carry the same
`(sender, identifier, sent)` triple back to back, Python's
remove-while-iterating skips the second one, so a matching alert survives
the Cancel. -/
theorem c2_counterexample : ¬ c2Claim := by
  intro h
  have hstep2 : pyForRemove
      (fun a => matchesRef { sender := "s", identifier := "i", sent := "t" } a)
      [{ sender := "s", identifier := "i", sent := "t", description := "d2" }] 1 =
      ([{ sender := "s", identifier := "i", sent := "t", description := "d2" }], false) := by
    rw [pyForRemove]
    simp
  have hstep1 : pyCancelRef { sender := "s", identifier := "i", sent := "t" }
      [{ sender := "s", identifier := "i", sent := "t", description := "d1" },
       { sender := "s", identifier := "i", sent := "t", description := "d2" }] =
      ([{ sender := "s", identifier := "i", sent := "t", description := "d2" }], true) := by
    unfold pyCancelRef
    rw [pyForRemove]
    rw [dif_pos (by norm_num)]
    rw [if_pos (by decide)]
    show ((pyForRemove
      (fun a => matchesRef { sender := "s", identifier := "i", sent := "t" } a)
      [({ sender := "s", identifier := "i", sent := "t", description := "d2" } : CapAlert)]
      1).1, true) = _
    rw [hstep2]
  have hstep0 : pyCancelRef { sender := "s", identifier := "i", sent := "t" }
      ([] : List CapAlert) = ([], false) := by
    unfold pyCancelRef
    rw [pyForRemove]
    simp
  have hc : (pyCancel [{ sender := "s", identifier := "i", sent := "t" }]
      [{ sender := "s", identifier := "i", sent := "t", description := "d1" },
       { sender := "s", identifier := "i", sent := "t", description := "d2" }] []).1.1 =
      [{ sender := "s", identifier := "i", sent := "t", description := "d2" }] := by
    show (pyCancel []
      (pyCancelRef { sender := "s", identifier := "i", sent := "t" }
        [{ sender := "s", identifier := "i", sent := "t", description := "d1" },
         { sender := "s", identifier := "i", sent := "t", description := "d2" }]).1
      (pyCancelRef { sender := "s", identifier := "i", sent := "t" }
        ([] : List CapAlert)).1).1.1 = _
    rw [hstep1, hstep0]
    rfl
  have hmem : { sender := "s", identifier := "i", sent := "t", description := "d2" } ∈
      (pyCancel [{ sender := "s", identifier := "i", sent := "t" }]
        [{ sender := "s", identifier := "i", sent := "t", description := "d1" },
         { sender := "s", identifier := "i", sent := "t", description := "d2" }] []).1.1 := by
    rw [hc]
    exact List.mem_singleton_self _
  exact (h [{ sender := "s", identifier := "i", sent := "t" }]
    [{ sender := "s", identifier := "i", sent := "t", description := "d1" },
     { sender := "s", identifier := "i", sent := "t", description := "d2" }] []).1
    { sender := "s", identifier := "i", sent := "t", description := "d2" }
    (by decide) (by decide) hmem

/-- C2 amended: provided no two alerts in the same list share a
`(sender, identifier, sent)` triple, the Cancel branch removes exactly the
alerts matching some reference from both lists (keeping all others in
order); and when no reference matches any alert, it logs a warning and
leaves the lists and the broadcast state unchanged. -/
theorem c2_cancel_removes_matches (refs : List CapRef) (act pend : List CapAlert)
    (hact : act.Pairwise (fun a b => alertKey a ≠ alertKey b))
    (hpend : pend.Pairwise (fun a b => alertKey a ≠ alertKey b)) :
    (pyCancel refs act pend).1.1 =
        act.filter (fun a => !(refs.any fun r => matchesRef r a)) ∧
    (pyCancel refs act pend).1.2 =
        pend.filter (fun a => !(refs.any fun r => matchesRef r a)) ∧
    ((∀ r ∈ refs, ∀ a ∈ act ++ pend, matchesRef r a = false) →
      watcherCancel refs act pend =
        { act := act, pend := pend, changed := false, warned := true }) := by
  refine ⟨(pyCancel_filter refs act pend hact hpend).1,
    (pyCancel_filter refs act pend hact hpend).2, ?_⟩
  intro hno
  unfold watcherCancel
  rw [pyCancel_no_match refs act pend hno]
  rfl

/-- Closed instance discharging the hypotheses of `c2_cancel_removes_matches`. -/
theorem c2_cancel_removes_matches_witness :
    (pyCancel [{ sender := "s", identifier := "i", sent := "t" }]
        [{ sender := "s", identifier := "i", sent := "t", description := "d1" },
         { sender := "a", identifier := "b", sent := "c", description := "d2" }]
        []).1.1 =
      [{ sender := "s", identifier := "i", sent := "t", description := "d1" },
       { sender := "a", identifier := "b", sent := "c", description := "d2" }].filter
        (fun a => !([{ sender := "s", identifier := "i", sent := "t" }].any
          fun r => matchesRef r a)) :=
  (c2_cancel_removes_matches [{ sender := "s", identifier := "i", sent := "t" }]
    [{ sender := "s", identifier := "i", sent := "t", description := "d1" },
     { sender := "a", identifier := "b", sent := "c", description := "d2" }] []
    (by simp [alertKey]) (by simp)).1

/-! ### DABWatcher Warning edge from src/dab/watcher.py

`run` (lines 256-305): when announcements are active and alarm or replace is
enabled, data streams are replaced first, then `_broadcast_tts` is called
for the audio streams.  `_broadcast_tts` renders TTS to mp3, transcodes with
ffmpeg, and only AFTER a successful transcode signals the alarm announcement
(`set <announcement> active 1`) and performs the audio stream replacement;
a missing voice, an ffmpeg failure or an ffmpeg timeout returns early. -/

structure WarningConfig where
  alarm : Bool
  replace : Bool
  data : Bool
  announcement : String
deriving DecidableEq

inductive WatcherEffect where
  | logError (msg : String)
  | logInfo (msg : String)
  | muxSend (parts : List String)
  | replaceStreams (input_type : Option String) (input : Option String) (dataStreams : Bool)
deriving DecidableEq

/-- Effects of `DABWatcher._broadcast_tts`.  `voiceFound` is
whether a voice for the language exists, `ffmpegResult` is `none` for a
timeout and `some code` for an exit with that code, `replaceAudioFails` is
whether `utils.replace_streams` raises. -/
def broadcastTts (cfg : WarningConfig) (voiceFound : Bool) (ffmpegResult : Option Nat)
    (replaceAudioFails : Bool) : List WatcherEffect :=
  if voiceFound = false then
    [.logError "Aborting TTS broadcast, language is not supported by the TTS backend."]
  else
    match ffmpegResult with
    | none => [.logError "Aborting TTS broadcast, ffmpeg timed out, please report this to the developer"]
    | some code =>
        if code ≠ 0 then
          [.logError "Aborting TTS broadcast, ffmpeg failed"]
        else
          (if cfg.alarm then
            [.muxSend ["set", cfg.announcement, "active", "1"],
             .logInfo "Activating alarm announcement"]
          else []) ++
          (if cfg.replace then
            (if replaceAudioFails then
              [.logError "Failed to perform stream replacement"]
            else
              [.replaceStreams (some "file") (some "tts.wav") false,
               .logInfo "Replaced audio streams with alarm stream successfully"])
          else [])

/-- The Warning-edge body of `DABWatcher.run` (announcements nonempty and
alarm or replace enabled): count audio and data streams, replace data
streams with the warning fifo, then run the TTS broadcast for audio
streams. -/
def warningEdge (cfg : WarningConfig) (outputTypes : List String)
    (voiceFound : Bool) (ffmpegResult : Option Nat)
    (replaceDataFails replaceAudioFails : Bool) : List WatcherEffect :=
  let datastreams := (outputTypes.filter (fun t => t = "data")).length
  let audiostreams := (outputTypes.filter (fun t => t ≠ "data")).length
  (if datastreams > 0 then
    (if replaceDataFails then
      [.logError "Failed to perform stream replacement"]
    else
      [.replaceStreams (some "fifo") (some "data.fifo") true,
       .logInfo "Replaced data streams with alarm stream successfully"])
  else []) ++
  (if audiostreams > 0 then
    .logInfo "Preparing TTS message..." ::
      broadcastTts cfg voiceFound ffmpegResult replaceAudioFails
  else [])

/-- Claim C1 as stated: on a Warning edge whose TTS rendering or transcode
fails or times out, the `set <announcement> active 1` mux command is still
sent and the data replacement is still performed. -/
def c1Claim : Prop :=
  ∀ (cfg : WarningConfig) (outputTypes : List String) (voiceFound : Bool)
    (ffmpegResult : Option Nat) (rdf raf : Bool),
    cfg.alarm = true →
    (ffmpegResult = none ∨ (∃ c, ffmpegResult = some c ∧ c ≠ 0) ∨ voiceFound = false) →
    WatcherEffect.muxSend ["set", cfg.announcement, "active", "1"] ∈
      warningEdge cfg outputTypes voiceFound ffmpegResult rdf raf ∧
    WatcherEffect.replaceStreams (some "fifo") (some "data.fifo") true ∈
      warningEdge cfg outputTypes voiceFound ffmpegResult rdf raf

/-- C1 is false on the code: with alarm enabled, one audio and one data
stream, and ffmpeg timing out, `_broadcast_tts` returns before reaching the
`set <announcement> active 1` command, so it is never sent. -/
theorem c1_counterexample : ¬ c1Claim := by
  intro h
  have := (h { alarm := true, replace := true, data := true, announcement := "alarm" }
    ["audio", "data"] true none false false rfl (Or.inl rfl)).1
  exact absurd this (by decide)

/-- C1 amended: on a Warning edge whose TTS rendering or transcode fails or
times out, the data-subchannel replacement (performed before the TTS call)
still proceeds, but the whole audio path of `_broadcast_tts` is aborted: no
mux command at all — in particular not `set <announcement> active 1` — is
sent. -/
theorem c1_warning_edge_on_tts_failure (cfg : WarningConfig)
    (outputTypes : List String) (voiceFound : Bool) (ffmpegResult : Option Nat)
    (rdf raf : Bool)
    (hfail : ffmpegResult = none ∨ (∃ c, ffmpegResult = some c ∧ c ≠ 0) ∨
      voiceFound = false)
    (hdata : "data" ∈ outputTypes) (hrdf : rdf = false) :
    WatcherEffect.replaceStreams (some "fifo") (some "data.fifo") true ∈
      warningEdge cfg outputTypes voiceFound ffmpegResult rdf raf ∧
    ∀ parts, WatcherEffect.muxSend parts ∉
      warningEdge cfg outputTypes voiceFound ffmpegResult rdf raf := by
  have hd : ((outputTypes.filter (fun t => t = "data")).length > 0) := by
    have hm : "data" ∈ outputTypes.filter (fun t => t = "data") :=
      List.mem_filter.mpr ⟨hdata, by simp⟩
    exact List.length_pos.mpr (List.ne_nil_of_mem hm)
  have hbt : ∀ parts, WatcherEffect.muxSend parts ∉
      broadcastTts cfg voiceFound ffmpegResult raf := by
    intro parts
    rcases hfail with hf | ⟨c, hc, hcne⟩ | hv
    · rw [broadcastTts.eq_def, hf]
      split <;> simp
    · rw [broadcastTts.eq_def, hc]
      split
      · simp
      · simp [hcne]
    · rw [broadcastTts.eq_def, if_pos hv]
      simp
  constructor
  · apply List.mem_append.mpr
    left
    rw [if_pos hd, hrdf]
    simp
  · intro parts hmem
    rcases List.mem_append.mp hmem with hin | hin
    · rw [if_pos hd, hrdf] at hin
      simp at hin
    · split at hin
      · rcases List.mem_cons.mp hin with h1 | h1
        · cases h1
        · exact hbt parts h1
      · cases hin

/-- Closed instance discharging the hypotheses of
`c1_warning_edge_on_tts_failure`. -/
theorem c1_warning_edge_on_tts_failure_witness :
    WatcherEffect.replaceStreams (some "fifo") (some "data.fifo") true ∈
      warningEdge { alarm := true, replace := true, data := true, announcement := "alarm" }
        ["audio", "data"] true none false false ∧
    ∀ parts, WatcherEffect.muxSend parts ∉
      warningEdge { alarm := true, replace := true, data := true, announcement := "alarm" }
        ["audio", "data"] true none false false :=
  c1_warning_edge_on_tts_failure
    { alarm := true, replace := true, data := true, announcement := "alarm" }
    ["audio", "data"] true none false false (Or.inl rfl) (by decide) rfl

/-! ### CAPServer._index enqueue from src/cap/server.py

After a successful parse of an Alert or Cancel, the handler calls
`self._q.put({...})` with the DEFAULT `block=True`, wrapped in
`except queue.Full`.  `queue.Queue.put` only raises `Full` when called
non-blocking (or with a timeout); with `block=True` and no timeout it waits
until a slot frees, so on a full queue the handler blocks and the `except`
branch is dead code. -/

inductive PutOutcome where
  | enqueued
  | raisesFull
  | blocks
deriving DecidableEq

/-- Semantics of `queue.Queue.put(item, block=b)` as a function of whether
the bounded queue is currently full. -/
def pyQueuePut (full : Bool) (block : Bool) : PutOutcome :=
  if full = false then .enqueued
  else if block then .blocks
  else .raisesFull

inductive HandlerResult where
  | respond200
  | logAndRespond200
  | blocked
deriving DecidableEq

/-- The enqueue step of `CAPServer._index` for a validated Alert/Cancel:
`self._q.put({...})` (blocking put) guarded by `except queue.Full`. -/
def capServerEnqueue (full : Bool) : HandlerResult :=
  match pyQueuePut full true with
  | .enqueued => .respond200
  | .raisesFull => .logAndRespond200
  | .blocks => .blocked

/-- C7 fails on the code: with the scheduler queue full, the handler's
`q.put` call blocks indefinitely instead of logging and returning 200; the
`queue.Full` handler is unreachable because the put is a blocking one. -/
theorem c7_queue_full_blocks :
    capServerEnqueue true = HandlerResult.blocked ∧
    capServerEnqueue true ≠ HandlerResult.respond200 ∧
    capServerEnqueue true ≠ HandlerResult.logAndRespond200 ∧
    capServerEnqueue false = HandlerResult.respond200 := by
  refine ⟨rfl, ?_, ?_, rfl⟩ <;> decide

/-! ### CAPParser.get_datetime from src/cap/parser.py

`get_datetime` is `datetime.datetime.strptime(timestamp, '%Y-%m-%dT%H:%M:%S%z')`
with `ValueError` mapped to `None`.  CPython's `_strptime` compiles the
format to a regex (with `re.IGNORECASE`, so the literal `T` also matches
`t`) built from `TimeRE`:
  %Y → `\d\d\d\d`                         %m → `1[0-2]|0[1-9]|[1-9]`
  %d → `3[01]|[12]\d|0[1-9]|[1-9]`        %H → `2[0-3]|[0-1]\d|\d`
  %M → `[0-5]\d|\d`                       %S → `6[0-1]|[0-5]\d|\d`
  %z → `[+-]\d\d:?\d\d(:?\d\d(\.\d{1,6})?)?|(?-i:Z)`
requires the match to span the whole string, then builds a
`datetime` (which validates the calendar date and field ranges) with a
`timezone` offset (strictly less than 24 h, colon use must be consistent).
The alternations below follow the regex alternative order; for this format
the first matching alternative is never backtracked, because every
alternative's follow-set (a literal `-`, `:`, `T` or a sign/`Z`) is
disjoint from the digit continuing the longer alternative. -/

def digitVal (c : Char) : Nat := c.toNat - '0'.toNat

def isDigit09 (c : Char) : Bool := '0' ≤ c && c ≤ '9'

/-- The regex of the claim:
`^\d{4}-\d{2}-\d{2}T\d{2}:\d{2}:\d{2}[+-]\d{2}:\d{2}$` (25 characters). -/
def claimTimestampRegex (cs : List Char) : Bool :=
  match cs with
  | [y1, y2, y3, y4, s1, m1, m2, s2, d1, d2, t, h1, h2, c1, n1, n2, c2, e1, e2,
     sg, o1, o2, c3, p1, p2] =>
      isDigit09 y1 && isDigit09 y2 && isDigit09 y3 && isDigit09 y4 &&
      s1 = '-' && isDigit09 m1 && isDigit09 m2 && s2 = '-' &&
      isDigit09 d1 && isDigit09 d2 && t = 'T' &&
      isDigit09 h1 && isDigit09 h2 && c1 = ':' &&
      isDigit09 n1 && isDigit09 n2 && c2 = ':' &&
      isDigit09 e1 && isDigit09 e2 &&
      (sg = '+' || sg = '-') && isDigit09 o1 && isDigit09 o2 &&
      c3 = ':' && isDigit09 p1 && isDigit09 p2
  | _ => false

/-- Directive `%Y`: exactly four digits. -/
def parseY : List Char → Option (Nat × List Char)
  | c1 :: c2 :: c3 :: c4 :: rest =>
      if isDigit09 c1 && isDigit09 c2 && isDigit09 c3 && isDigit09 c4 then
        some (((digitVal c1 * 10 + digitVal c2) * 10 + digitVal c3) * 10 + digitVal c4, rest)
      else none
  | _ => none

/-- Directive `%m`: `1[0-2]|0[1-9]|[1-9]`. -/
def parseMonth : List Char → Option (Nat × List Char)
  | c1 :: c2 :: rest =>
      if c1 = '1' && ('0' ≤ c2 && c2 ≤ '2') then some (10 + digitVal c2, rest)
      else if c1 = '0' && ('1' ≤ c2 && c2 ≤ '9') then some (digitVal c2, rest)
      else if '1' ≤ c1 && c1 ≤ '9' then some (digitVal c1, c2 :: rest)
      else none
  | [c1] => if '1' ≤ c1 && c1 ≤ '9' then some (digitVal c1, []) else none
  | [] => none

/-- Directive `%d`: `3[01]|[12]\d|0[1-9]|[1-9]`. -/
def parseDay : List Char → Option (Nat × List Char)
  | c1 :: c2 :: rest =>
      if c1 = '3' && ('0' ≤ c2 && c2 ≤ '1') then some (30 + digitVal c2, rest)
      else if ('1' ≤ c1 && c1 ≤ '2') && isDigit09 c2 then
        some (digitVal c1 * 10 + digitVal c2, rest)
      else if c1 = '0' && ('1' ≤ c2 && c2 ≤ '9') then some (digitVal c2, rest)
      else if '1' ≤ c1 && c1 ≤ '9' then some (digitVal c1, c2 :: rest)
      else none
  | [c1] => if '1' ≤ c1 && c1 ≤ '9' then some (digitVal c1, []) else none
  | [] => none

/-- Directive `%H`: `2[0-3]|[0-1]\d|\d`. -/
def parseHour : List Char → Option (Nat × List Char)
  | c1 :: c2 :: rest =>
      if c1 = '2' && ('0' ≤ c2 && c2 ≤ '3') then some (20 + digitVal c2, rest)
      else if ('0' ≤ c1 && c1 ≤ '1') && isDigit09 c2 then
        some (digitVal c1 * 10 + digitVal c2, rest)
      else if isDigit09 c1 then some (digitVal c1, c2 :: rest)
      else none
  | [c1] => if isDigit09 c1 then some (digitVal c1, []) else none
  | [] => none

/-- Directive `%M`: `[0-5]\d|\d`. -/
def parseMinute : List Char → Option (Nat × List Char)
  | c1 :: c2 :: rest =>
      if ('0' ≤ c1 && c1 ≤ '5') && isDigit09 c2 then
        some (digitVal c1 * 10 + digitVal c2, rest)
      else if isDigit09 c1 then some (digitVal c1, c2 :: rest)
      else none
  | [c1] => if isDigit09 c1 then some (digitVal c1, []) else none
  | [] => none

/-- Directive `%S`: `6[0-1]|[0-5]\d|\d` (60 and 61 are leap seconds; `datetime`
rejects them later). -/
def parseSecond : List Char → Option (Nat × List Char)
  | c1 :: c2 :: rest =>
      if c1 = '6' && ('0' ≤ c2 && c2 ≤ '1') then some (60 + digitVal c2, rest)
      else if ('0' ≤ c1 && c1 ≤ '5') && isDigit09 c2 then
        some (digitVal c1 * 10 + digitVal c2, rest)
      else if isDigit09 c1 then some (digitVal c1, c2 :: rest)
      else none
  | [c1] => if isDigit09 c1 then some (digitVal c1, []) else none
  | [] => none

/-- The matched `%z` group, decomposed. `sec` carries whether its optional
colon was present, the two-digit value, and the fraction digits if any. -/
structure ZMatch where
  zulu : Bool
  neg : Bool
  hh : Nat
  colon1 : Bool
  mm : Nat
  sec : Option (Bool × Nat × Option (List Char))
deriving DecidableEq

/-- Greedily consume up to `n` digits. -/
def takeDigits : Nat → List Char → (List Char × List Char)
  | 0, cs => ([], cs)
  | _ + 1, [] => ([], [])
  | n + 1, c :: cs =>
      if isDigit09 c then
        let r := takeDigits n cs
        (c :: r.1, r.2)
      else ([], c :: cs)

/-- The optional seconds part of `%z`: `(:?\d\d(\.\d{1,6})?)?`, greedy. -/
def parseZSec (cs : List Char) : Option (Bool × Nat × Option (List Char)) × List Char :=
  let colon2 := match cs with
    | ':' :: _ => true
    | _ => false
  let cs1 := if colon2 then cs.tail else cs
  match cs1 with
  | c1 :: c2 :: rest =>
      if isDigit09 c1 && isDigit09 c2 then
        match rest with
        | '.' :: d1 :: ds =>
            if isDigit09 d1 then
              let r := takeDigits 5 ds
              (some (colon2, digitVal c1 * 10 + digitVal c2, some (d1 :: r.1)), r.2)
            else (some (colon2, digitVal c1 * 10 + digitVal c2, none), rest)
        | _ => (some (colon2, digitVal c1 * 10 + digitVal c2, none), rest)
      else (none, cs)
  | _ => (none, cs)

/-- Directive `%z`: `[+-]\d\d:?\d\d(:?\d\d(\.\d{1,6})?)?|(?-i:Z)`; the `Z` stays
case-sensitive under `re.IGNORECASE`. -/
def parseZ (cs : List Char) : Option (ZMatch × List Char) :=
  match cs with
  | 'Z' :: rest =>
      some ({ zulu := true, neg := false, hh := 0, colon1 := false, mm := 0, sec := none },
        rest)
  | sg :: rest =>
      if sg = '+' || sg = '-' then
        match rest with
        | h1 :: h2 :: rest2 =>
            if isDigit09 h1 && isDigit09 h2 then
              let colon1 := match rest2 with
                | ':' :: _ => true
                | _ => false
              let rest3 := if colon1 then rest2.tail else rest2
              match rest3 with
              | m1 :: m2 :: rest4 =>
                  if isDigit09 m1 && isDigit09 m2 then
                    let r := parseZSec rest4
                    some ({ zulu := false, neg := sg = '-',
                            hh := digitVal h1 * 10 + digitVal h2, colon1 := colon1,
                            mm := digitVal m1 * 10 + digitVal m2, sec := r.1 }, r.2)
                  else none
              | _ => none
            else none
        | _ => none
      else none
  | [] => none

structure RawGroups where
  year : Nat
  month : Nat
  day : Nat
  hour : Nat
  minute : Nat
  second : Nat
  z : ZMatch
deriving DecidableEq

def parseLiteral (c : Char) : List Char → Option (List Char)
  | x :: rest => if x = c then some rest else none
  | [] => none

/-- The literal `T` matches case-insensitively under `re.IGNORECASE`. -/
def parseLiteralT : List Char → Option (List Char)
  | x :: rest => if x = 'T' || x = 't' then some rest else none
  | [] => none

/-- Full-string match of the compiled format regex for
`'%Y-%m-%dT%H:%M:%S%z'` (CPython `_strptime` raises `ValueError` unless
`found.end() == len(data_string)`). -/
def strptimeFormatMatch (cs : List Char) : Option RawGroups :=
  match parseY cs with
  | none => none
  | some (y, r1) =>
    match parseLiteral '-' r1 with
    | none => none
    | some r2 =>
      match parseMonth r2 with
      | none => none
      | some (mo, r3) =>
        match parseLiteral '-' r3 with
        | none => none
        | some r4 =>
          match parseDay r4 with
          | none => none
          | some (d, r5) =>
            match parseLiteralT r5 with
            | none => none
            | some r6 =>
              match parseHour r6 with
              | none => none
              | some (h, r7) =>
                match parseLiteral ':' r7 with
                | none => none
                | some r8 =>
                  match parseMinute r8 with
                  | none => none
                  | some (mi, r9) =>
                    match parseLiteral ':' r9 with
                    | none => none
                    | some r10 =>
                      match parseSecond r10 with
                      | none => none
                      | some (sec, r11) =>
                        match parseZ r11 with
                        | none => none
                        | some (z, r12) =>
                          if r12 = [] then
                            some { year := y, month := mo, day := d, hour := h,
                                   minute := mi, second := sec, z := z }
                          else none

def isLeapYear (y : Nat) : Bool :=
  y % 4 = 0 && (y % 100 ≠ 0 || y % 400 = 0)

def daysInMonth (y m : Nat) : Nat :=
  if m = 2 then (if isLeapYear y then 29 else 28)
  else if m = 4 || m = 6 || m = 9 || m = 11 then 30
  else 31

/-- The value returned by a successful `strptime`: a `datetime` with a
fixed-offset timezone (offset in microseconds, with its sign). -/
structure PyDateTime where
  year : Nat
  month : Nat
  day : Nat
  hour : Nat
  minute : Nat
  second : Nat
  tzNeg : Bool
  tzMicro : Nat
deriving DecidableEq

def fracMicro (frac : Option (List Char)) : Nat :=
  match frac with
  | none => 0
  | some ds => ds.foldl (fun acc c => acc * 10 + digitVal c) 0 * 10 ^ (6 - ds.length)

/-- Colon use inside `%z` must be consistent (`_strptime` raises
`ValueError` for e.g. `+00:0000`, and `int(':0')` raises for `+0000:00`). -/
def zColonsOk (z : ZMatch) : Bool :=
  match z.sec with
  | none => true
  | some (colon2, _, _) => colon2 = z.colon1

def zOffsetMicro (z : ZMatch) : Nat :=
  ((z.hh * 3600 + z.mm * 60 + (match z.sec with
    | none => 0
    | some (_, ss, _) => ss)) * 1000000) +
  (match z.sec with
   | none => 0
   | some (_, _, frac) => fracMicro frac)

/-- The validation performed after the regex match: `datetime.timezone`
requires |offset| strictly below 24 hours, and the `datetime` constructor
validates the calendar date and the field ranges (leap seconds 60/61 and
day numbers beyond the month length raise `ValueError`). -/
def buildDatetime (g : RawGroups) : Option PyDateTime :=
  if zColonsOk g.z = false then none
  else if (g.z.zulu = false) && (zOffsetMicro g.z ≥ 86400000000) then none
  else if g.year < 1 then none
  else if g.month < 1 || g.month > 12 then none
  else if g.day < 1 || g.day > daysInMonth g.year g.month then none
  else if g.hour > 23 then none
  else if g.minute > 59 then none
  else if g.second > 59 then none
  else some { year := g.year, month := g.month, day := g.day, hour := g.hour,
              minute := g.minute, second := g.second,
              tzNeg := g.z.neg && (g.z.zulu = false),
              tzMicro := if g.z.zulu then 0 else zOffsetMicro g.z }

/-- Function `CAPParser.get_datetime`: `strptime` with `ValueError` mapped to `None`. -/
def get_datetime (s : String) : Option PyDateTime :=
  match strptimeFormatMatch s.data with
  | none => none
  | some g => buildDatetime g

/-- Claim C8 as stated: any string rejected by the claim's regex makes
`get_datetime` return `None`. -/
def c8Claim : Prop :=
  ∀ s : String, claimTimestampRegex s.data = false → get_datetime s = none

/-- C8 is false on the code: `strptime`'s `%z` also accepts offsets without
a colon, so `2022-01-01T00:00:00+0000` fails the claim's regex yet parses
successfully. -/
theorem c8_counterexample : ¬ c8Claim := by
  intro h
  have := h "2022-01-01T00:00:00+0000" (by decide)
  exact absurd this (by decide)

/-- C8 amended: for every string rejected by the format regex that
`strptime('%Y-%m-%dT%H:%M:%S%z')` actually compiles (which also accepts
unpadded month/day/hour/minute/second, a lowercase `t`, `Z`, and offsets
with omitted colon or with seconds and fractions), `get_datetime` returns
`None`. -/
theorem c8_strptime_reject (s : String)
    (h : strptimeFormatMatch s.data = none) : get_datetime s = none := by
  unfold get_datetime
  rw [h]

/-- Closed instance discharging the hypothesis of `c8_strptime_reject`. -/
theorem c8_strptime_reject_witness :
    strptimeFormatMatch ("2022-13-01T00:00:00+01:00").data = none ∧
    get_datetime "2022-13-01T00:00:00+01:00" = none :=
  ⟨by decide, c8_strptime_reject "2022-13-01T00:00:00+01:00" (by decide)⟩

/-! ### CAPParser.parse from src/cap/parser.py (with src/utils.py logger_strict)

`utils.logger_strict` has signature `(logger, strict, msg)`, but every call
site in cap/parser.py passes only `(logger, msg)`; Python raises
`TypeError: logger_strict() missing 1 required positional argument: 'msg'`,
which propagates out of `parse` and out of `CAPServer._index` (no
try/except), so Flask answers 500.  An XML element is modelled as
`Option String`: `none` for a missing element, `some text` for its text. -/

inductive PyExc where
  | typeError
  | indexError
  | attributeError
deriving DecidableEq

structure CapInfo where
  category : Option String
  event : Option String
  urgency : Option String
  severity : Option String
  certainty : Option String
  language : Option String
  effective : Option String
  expires : Option String
  description : Option String
deriving DecidableEq

structure CapDoc where
  namespaceOk : Bool
  identifier : Option String
  sender : Option String
  sent : Option String
  status : Option String
  msgType : Option String
  scope : Option String
  references : Option String
  info : Option CapInfo
deriving DecidableEq

/-- Method `__check_info_elements`: required elements, then the `<language>` check
whose `utils.logger_strict(logger, msg)` call raises `TypeError` when it
would run (the `strict` argument is missing), then the `<effective>` and
`<expires>` timestamp checks (`.text` on a missing element raises
`AttributeError`).  The category/urgency/severity/certainty value checks
only emit warnings. -/
def checkInfoElements (info : CapInfo) : Except PyExc Bool :=
  if info.category = none then .ok false
  else if info.event = none then .ok false
  else if info.urgency = none then .ok false
  else if info.severity = none then .ok false
  else if info.certainty = none then .ok false
  else if info.language = none then .error .typeError
  else
    match info.effective with
    | none => .error .attributeError
    | some eff =>
        if get_datetime eff = none then .ok false
        else
          match info.expires with
          | none => .error .attributeError
          | some exp =>
              if get_datetime exp = none then .ok false
              else .ok true

/-- Method `__check_elements`: presence of the required `<alert>` children, the
`<sent>` timestamp check, the msgType-specific checks (for `Cancel` a
missing `<references>` does NOT fail: `if logger.error(...)` is always
falsy), and the `<scope>` check whose two-argument
`utils.logger_strict(logger, msg)` call raises `TypeError` whenever
scope differs from `Public`, in strict and lenient mode alike. -/
def checkElements (doc : CapDoc) : Except PyExc Bool :=
  if doc.identifier = none then .ok false
  else if doc.sender = none then .ok false
  else if doc.sent = none then .ok false
  else if doc.status = none then .ok false
  else if doc.msgType = none then .ok false
  else if doc.scope = none then .ok false
  else if get_datetime (doc.sent.getD "") = none then .ok false
  else
    let msgType := doc.msgType.getD ""
    let status := doc.status.getD ""
    let afterType : Except PyExc Bool :=
      if msgType = "Alert" && status ≠ "Test" then
        match doc.info with
        | none => .ok false
        | some i =>
            match checkInfoElements i with
            | .error e => .error e
            | .ok false => .ok false
            | .ok true => .ok true
      else .ok true
    match afterType with
    | .error e => .error e
    | .ok false => .ok false
    | .ok true =>
        if doc.scope.getD "" ≠ "Public" then .error .typeError
        else .ok true

/-- Python `str.split(sep)` with a one-character separator: splits at every
occurrence and keeps empty fragments (`''.split(',') == ['']`). -/
def pySplitChar (sep : Char) : List Char → List (List Char)
  | [] => [[]]
  | c :: rest =>
      match pySplitChar sep rest with
      | [] => [[]]
      | g :: gs => if c = sep then [] :: g :: gs else (c :: g) :: gs

def pySplit (sep : Char) (s : String) : List String :=
  (pySplitChar sep s.data).map (fun cs => String.mk cs)

/-- One entry of `<references>`: `ref = msg.split(',')` followed by
subscripts `ref[0]`, `ref[1]`, `ref[2]` (an entry with fewer than three
comma-separated fields raises `IndexError`). -/
def parseOneRef (msg : String) : Except PyExc CapRef :=
  match pySplit ',' msg with
  | s :: i :: t :: _ => .ok { sender := s, identifier := i, sent := t }
  | _ => .error .indexError

/-- Method `__parse_references`: `refs.split(' ')`, then parse each entry in
order. -/
def parseReferences (refs : String) : Except PyExc (List CapRef) :=
  (pySplit ' ' refs).mapM parseOneRef

inductive ParseOutcome where
  | failed
  | linkTest
  | alertMsg (lang : String) (effective expires : Option PyDateTime) (description : String)
  | cancelMsg (refs : List CapRef)
  | unknown
deriving DecidableEq

/-- Method `CAPParser.parse` on an already well-formed XML tree.  The namespace
check also goes through the broken two-argument `logger_strict` call. -/
def capParse (doc : CapDoc) : Except PyExc ParseOutcome :=
  if doc.namespaceOk = false then .error .typeError
  else
    match checkElements doc with
    | .error e => .error e
    | .ok false => .ok .failed
    | .ok true =>
        let msgType := doc.msgType.getD ""
        if msgType = "Alert" then
          let status := doc.status.getD ""
          if status = "Test" then .ok .linkTest
          else if status = "Actual" then
            match doc.info with
            | none => .error .attributeError
            | some i =>
                match i.language, i.effective, i.expires, i.description with
                | some lang, some eff, some exp, some dsc =>
                    .ok (.alertMsg lang (get_datetime eff) (get_datetime exp) dsc)
                | _, _, _, _ => .error .attributeError
          else .ok .unknown
        else if msgType = "Cancel" then
          match doc.references with
          | none => .error .attributeError
          | some refsText =>
              match parseReferences refsText with
              | .error e => .error e
              | .ok refs => .ok (.cancelMsg refs)
        else .ok .unknown

/-- The HTTP status `CAPServer._index` produces from the parse step: an
uncaught exception becomes Flask's 500, a `False` parse (or an unknown
message type) becomes 400, otherwise the handler proceeds towards 200. -/
def capStatus (r : Except PyExc ParseOutcome) : Nat :=
  match r with
  | .error _ => 500
  | .ok .failed => 400
  | .ok .unknown => 400
  | .ok _ => 200

/-- An otherwise-valid CAP Alert whose scope is `Restricted`. -/
def restrictedAlertDoc : CapDoc :=
  { namespaceOk := true
    identifier := some "TEST-1"
    sender := some "cap@example.org"
    sent := some "2022-01-01T10:00:00+01:00"
    status := some "Actual"
    msgType := some "Alert"
    scope := some "Restricted"
    references := none
    info := some
      { category := some "Safety"
        event := some "Waarschuwing"
        urgency := some "Unknown"
        severity := some "Unknown"
        certainty := some "Unknown"
        language := some "nl-NL"
        effective := some "2022-01-01T10:00:00+01:00"
        expires := some "2022-01-01T11:00:00+01:00"
        description := some "Testbericht" } }

/-- C9 fails on the code: an otherwise-valid Alert with `scope=Restricted`
makes `parse` raise `TypeError` (the two-argument `logger_strict` call) in
strict AND lenient mode, so the HTTP surface answers 500 — neither the
claimed 400 in strict mode nor the claimed Alert-with-warning in lenient
mode.  The model is mode-independent because the exception fires before
`strict` is ever consulted. -/
theorem c9_restricted_scope_type_error :
    capParse restrictedAlertDoc = Except.error PyExc.typeError ∧
    capStatus (capParse restrictedAlertDoc) = 500 ∧
    capStatus (capParse restrictedAlertDoc) ≠ 400 ∧
    capStatus (capParse restrictedAlertDoc) ≠ 200 := by
  refine ⟨rfl, by decide, by decide, by decide⟩

theorem mapM_ref_bad :
    ∀ (l : List String), (∃ m ∈ l, (pySplit ',' m).length < 3) →
      l.mapM parseOneRef = Except.error PyExc.indexError := by
  intro l
  induction l with
  | nil =>
      rintro ⟨m, hm, _⟩
      cases hm
  | cons a t ih =>
      rintro ⟨m, hm, hlen⟩
      rw [List.mapM_cons]
      by_cases ha : (pySplit ',' a).length < 3
      · have herr : parseOneRef a = .error .indexError := by
          unfold parseOneRef
          split
          · rename_i s i tt rest heq
            rw [heq] at ha
            simp at ha
            omega
          · rfl
        rw [herr]
        rfl
      · have hmt : m ∈ t := by
          rcases List.mem_cons.mp hm with h1 | h1
          · exact absurd (h1 ▸ hlen) ha
          · exact h1
        have hok : ∃ r, parseOneRef a = .ok r := by
          unfold parseOneRef
          split
          · exact ⟨_, rfl⟩
          · rename_i hne
            exfalso
            rcases hsp : pySplit ',' a with _ | ⟨x, _ | ⟨y, _ | ⟨z, rest⟩⟩⟩
            · rw [hsp] at ha
              simp at ha
            · rw [hsp] at ha
              simp at ha
            · rw [hsp] at ha
              simp at ha
            · exact hne x y z rest hsp
        rcases hok with ⟨r, hr⟩
        rw [hr, ih ⟨m, hmt, hlen⟩]
        rfl

/-- C10: a Cancel document that passes the element-presence checks but whose
`<references>` text contains an entry with fewer than three comma-separated
fields makes `parse` raise an uncaught `IndexError`, so the HTTP surface
answers 500 instead of the 400 given to other invalid documents. -/
theorem c10_cancel_references_index_error (doc : CapDoc) (ts rs : String)
    (hns : doc.namespaceOk = true)
    (hid : doc.identifier ≠ none) (hsend : doc.sender ≠ none)
    (hsent : doc.sent = some ts) (hts : get_datetime ts ≠ none)
    (hstatus : doc.status ≠ none)
    (hmsg : doc.msgType = some "Cancel")
    (hscope : doc.scope = some "Public")
    (hrefs : doc.references = some rs)
    (hbad : ∃ m ∈ pySplit ' ' rs, (pySplit ',' m).length < 3) :
    capParse doc = Except.error PyExc.indexError ∧
    capStatus (capParse doc) = 500 ∧ capStatus (capParse doc) ≠ 400 := by
  have hce : checkElements doc = .ok true := by
    unfold checkElements
    rw [if_neg hid, if_neg hsend, if_neg (by rw [hsent]; exact Option.some_ne_none ts),
      if_neg hstatus, if_neg (by rw [hmsg]; exact Option.some_ne_none _),
      if_neg (by rw [hscope]; exact Option.some_ne_none _), hsent, hmsg, hscope]
    rw [if_neg (by simpa using hts)]
    simp
  have hparse : capParse doc = Except.error PyExc.indexError := by
    unfold capParse
    rw [hns, hce, hmsg, hrefs]
    show (match parseReferences rs with
      | .error e => Except.error e
      | .ok refs => Except.ok (ParseOutcome.cancelMsg refs)) = _
    rw [parseReferences, mapM_ref_bad (pySplit ' ' rs) hbad]
  refine ⟨hparse, ?_, ?_⟩ <;> rw [hparse] <;> decide

/-- The concrete failing input: a Cancel whose references entry
`rws@x,nl.rws.1` has only two comma-separated fields. -/
def badCancelDoc : CapDoc :=
  { namespaceOk := true
    identifier := some "TEST-2"
    sender := some "cap@example.org"
    sent := some "2022-01-01T10:00:00+01:00"
    status := some "Actual"
    msgType := some "Cancel"
    scope := some "Public"
    references := some "rws@x,nl.rws.1"
    info := none }

/-- Closed instance discharging the hypotheses of
`c10_cancel_references_index_error`. -/
theorem c10_cancel_references_index_error_witness :
    capParse badCancelDoc = Except.error PyExc.indexError ∧
    capStatus (capParse badCancelDoc) = 500 ∧
    capStatus (capParse badCancelDoc) ≠ 400 :=
  c10_cancel_references_index_error badCancelDoc "2022-01-01T10:00:00+01:00"
    "rws@x,nl.rws.1" rfl (by decide) (by decide) rfl (by decide) (by decide)
    rfl rfl rfl ⟨"rws@x,nl.rws.1", by decide, by decide⟩

end CapDab
